import Mathlib

/- Shallow embedding of the Terraform code generator of
   src/lib/terraform-generator.ts.  JavaScript strings are modelled as
   lists of characters; the generator's string operations (lowercasing,
   regex replacement, joining, trimming) are modelled by structurally
   recursive functions on such lists. -/

set_option maxRecDepth 100000

namespace TG

/-- JavaScript strings, modelled as lists of characters. -/
abbrev Str := List Char

/-- The newline character, used as separator by the source's join calls. -/
def nl : Str := "\n".toList

/-- ASCII lowercasing of one character; the effect of the source's
    toLowerCase on each character relevant here. -/
def jsLowerChar (c : Char) : Char :=
  if 'A' ≤ c ∧ c ≤ 'Z' then Char.ofNat (c.toNat + 32) else c

/-- Membership in the character class a-z0-9_ kept by the sanitizer's
    second step, the complement of the regex class in the source. -/
def keptChar (c : Char) : Bool :=
  if ('a' ≤ c ∧ c ≤ 'z') ∨ ('0' ≤ c ∧ c ≤ '9') ∨ c = '_' then true else false

/-- Third sanitizer step: the regex ^[0-9] replaced by an underscore,
    so a leading digit is replaced (dropped), not prefixed. -/
def replaceLeadingDigit : Str → Str
  | [] => []
  | c :: cs => if c.isDigit then '_' :: cs else c :: cs

/-- Fourth sanitizer step: each maximal run of underscores becomes one. -/
def collapseUnderscores : Str → Str
  | [] => []
  | [c] => [c]
  | c :: d :: rest =>
    if c = '_' ∧ d = '_' then collapseUnderscores (d :: rest)
    else c :: collapseUnderscores (d :: rest)

/-- Name sanitizer from the source (sanitizeResourceName): lowercase,
    replace characters outside a-z0-9_ by an underscore, replace a leading
    digit by an underscore, collapse underscore runs, and fall back to the
    literal "resource" when the result is empty.  The process-wide name
    cache of the source is performance-only; it is modelled separately and
    proved output-irrelevant below. -/
def sanitizeResourceName (name : Str) : Str :=
  let sanitized :=
    collapseUnderscores (replaceLeadingDigit
      ((name.map jsLowerChar).map (fun c => if keptChar c then c else '_')))
  if sanitized = [] then ("resource").toList else sanitized

/-- Global single-character replacement: every occurrence of the character
    c is replaced by the string r, as a JavaScript global regex replace. -/
def replaceChar (c : Char) (r : Str) : Str → Str
  | [] => []
  | x :: xs => (if x = c then r else [x]) ++ replaceChar c r xs

/-- String escaper from the source (escapeHCLString), the five
    replacements applied in order: backslash, double quote, newline,
    carriage return, tab. -/
def escapeHCLString (str : Str) : Str :=
  replaceChar '\t' (("\\t").toList)
    (replaceChar '\r' (("\\r").toList)
      (replaceChar '\n' (("\\n").toList)
        (replaceChar '"' (("\\\"").toList)
          (replaceChar '\\' (("\\\\").toList) str))))

/-- JavaScript a or b on strings: the empty string is falsy. -/
def jsOr (a b : Str) : Str := if a = [] then b else a

/-- JavaScript Array.prototype.join on a list of strings. -/
def joinSep (sep : Str) : List Str → Str
  | [] => []
  | [x] => x
  | x :: y :: zs => x ++ sep ++ joinSep sep (y :: zs)

/-- JavaScript whitespace relevant to String.trim here. -/
def jsWs (c : Char) : Bool := c = ' ' ∨ c = '\t' ∨ c = '\n' ∨ c = '\r'

/-- JavaScript String.trim: strip leading and trailing whitespace. -/
def jsTrim (s : Str) : Str :=
  ((s.dropWhile jsWs).reverse.dropWhile jsWs).reverse

/-- Truthiness of an optional string property, as tested by the
    emitters' if (props.x) guards: present and non-empty. -/
def truthyStr : Option Str → Bool
  | some s => decide (s ≠ [])
  | none => false

/-- The value behind an optional string property (meaningful under
    truthyStr). -/
def strVal (o : Option Str) : Str := o.getD []

/-- Truthiness of an optional numeric property: present and non-zero
    (JavaScript treats 0 as falsy). -/
def truthyNat : Option Nat → Bool
  | some n => decide (n ≠ 0)
  | none => false

/-- The value behind an optional numeric property. -/
def natVal (o : Option Nat) : Nat := o.getD 0

/-- Truthiness of an optional boolean property. -/
def truthyBool : Option Bool → Bool
  | some b => b
  | none => false

/-- Decimal digit character. -/
def digitChar (d : Nat) : Char := Char.ofNat (48 + d)

/-- Decimal rendering of a natural number, most significant digit first;
    models JavaScript template interpolation of the numeric properties. -/
def natToCharsCore (n : Nat) (acc : Str) : Str :=
  if n < 10 then digitChar n :: acc
  else natToCharsCore (n / 10) (digitChar (n % 10) :: acc)
termination_by n
decreasing_by
  exact Nat.div_lt_self (by omega) (by omega)

/-- Decimal rendering of a natural number. -/
def natToChars (n : Nat) : Str := natToCharsCore n []

/-- Rendering of a boolean by template interpolation. -/
def boolToChars (b : Bool) : Str :=
  if b then ("true").toList else ("false").toList

/-- Union of the per-kind property interfaces of the source; every field
    is optional, matching the TypeScript interfaces.  Numeric properties
    are modelled as naturals (only truthiness and decimal rendering of
    them are observable here). -/
structure Properties where
  instanceType : Option Str
  ami : Option Str
  keyName : Option Str
  securityGroups : Option (List Str)
  bucketName : Option Str
  versioning : Option Bool
  encryption : Option Bool
  allocatedStorage : Option Nat
  engine : Option Str
  instanceClass : Option Str
  dbName : Option Str
  functionName : Option Str
  runtime : Option Str
  handler : Option Str
  memory : Option Nat
  cidrBlock : Option Str
  enableDnsHostnames : Option Bool
  enableDnsSupport : Option Bool
  name : Option Str
  scheme : Option Str
  ipAddressType : Option Str
  protocolType : Option Str
  corsEnabled : Option Bool
  tableName : Option Str
  billingMode : Option Str
  hashKey : Option Str
  scope : Option Str
  defaultAction : Option Str
deriving DecidableEq

/-- The all-absent property record. -/
def noProps : Properties :=
  ⟨none, none, none, none, none, none, none, none, none, none, none, none,
   none, none, none, none, none, none, none, none, none, none, none, none,
   none, none, none, none⟩

/-- Node payload: label and property record (types/index.ts NodeData). -/
structure NodeData where
  label : Str
  properties : Properties
deriving DecidableEq

/-- Canvas node (types/index.ts Node).  The runtime kind tag is a string;
    the position field is never read by the generator and is omitted. -/
structure Node where
  id : Str
  type : Str
  data : NodeData
deriving DecidableEq

/-- Canvas edge (types/index.ts Edge): target depends on source.  The
    optional React Flow edge type is never read by the generator. -/
structure Edge where
  id : Str
  source : Str
  target : Str
deriving DecidableEq

/-- Truthiness of the optional securityGroups array combined with the
    Array.isArray and length checks of the source. -/
def truthySGs : Option (List Str) → Bool
  | some l => decide (l ≠ [])
  | none => false

/-- The value behind the optional securityGroups array. -/
def sgVal (o : Option (List Str)) : List Str := o.getD []

/-- The ternary chain of generateDependsOn mapping a node kind to its
    Terraform declaration type. -/
def terraformTypeFor (t : Str) : Str :=
  if t = ("ec2").toList then ("aws_instance").toList
  else if t = ("lambda").toList then ("aws_lambda_function").toList
  else if t = ("vpc").toList then ("aws_vpc").toList
  else if t = ("alb").toList then ("aws_lb").toList
  else if t = ("apigateway").toList then ("aws_apigatewayv2_api").toList
  else if t = ("s3").toList then ("aws_s3_bucket").toList
  else if t = ("rds").toList then ("aws_db_instance").toList
  else if t = ("dynamodb").toList then ("aws_dynamodb_table").toList
  else if t = ("waf").toList then ("aws_wafv2_web_acl").toList
  else ("aws_resource").toList

/-- The nine kinds with a case in generateResourceBlock's switch. -/
def supportedType (t : Str) : Bool :=
  if t = ("ec2").toList ∨ t = ("lambda").toList ∨ t = ("vpc").toList ∨
     t = ("alb").toList ∨ t = ("apigateway").toList ∨ t = ("s3").toList ∨
     t = ("rds").toList ∨ t = ("dynamodb").toList ∨ t = ("waf").toList
  then true else false

/-- Dependency lookup from the source (findDependencies, cache aside):
    sources of all edges whose target is the node, in edge-list order. -/
def findDependencies (nodeId : Str) (edges : List Edge) : List Str :=
  (edges.filter (fun edge => edge.target == nodeId)).map (fun edge => edge.source)

/-- Body of the map in generateDependsOn: resolve one upstream id to a
    qualified reference, or null when no node has that id. -/
def refOfDep (nodes : List Node) (depId : Str) : Option Str :=
  match nodes.find? (fun n => n.id == depId) with
  | none => none
  | some depNode =>
    some (terraformTypeFor depNode.type ++ (".").toList
      ++ sanitizeResourceName (jsOr depNode.data.label depNode.id))

/-- generateDependsOn from the source: empty when there are no
    dependencies or none resolves; otherwise the bracketed reference list
    (map plus filter(Boolean) is modelled by reduceOption). -/
def generateDependsOn (nodeId : Str) (edges : List Edge) (nodes : List Node) : Str :=
  let dependencies := findDependencies nodeId edges
  if dependencies = [] then []
  else
    let dependencyRefs := (dependencies.map (refOfDep nodes)).reduceOption
    if dependencyRefs = [] then []
    else ("  depends_on = [").toList
      ++ joinSep ((", ").toList) dependencyRefs ++ ("]\n").toList

/-- The tags sub-block pushed identically by every emitter. -/
def tagsSegment (label resourceName : Str) : List Str :=
  [[], ("  tags = \x7b").toList,
   ("    Name = \"").toList ++ escapeHCLString (jsOr label resourceName) ++ ("\"").toList,
   ("  \x7d").toList]

/-- The conditional depends_on push shared by every emitter: a blank line
    and the trimmed depends_on line, when there are dependencies. -/
def dependsOnSegment (nodeId : Str) (edges : List Edge) (nodes : List Node) : List Str :=
  let dependsOn := generateDependsOn nodeId edges nodes
  if dependsOn = [] then [] else [[], jsTrim dependsOn]

/-- A conditional push of one line. -/
def pushIf (b : Bool) (l : Str) : List Str := if b then [l] else []

/-- The lines pushed by the EC2 emitter, given the depends_on segment. -/
def ec2LinesWith (node : Node) (resourceName : Str) (depSeg : List Str) : List Str :=
  let props := node.data.properties
  (
    [("resource \"aws_instance\" \"").toList ++ resourceName ++ ("\" \x7b").toList]
    ++ pushIf (truthyStr props.ami)
      (("  ami           = \"").toList ++ escapeHCLString (strVal props.ami) ++ ("\"").toList)
    ++ pushIf (truthyStr props.instanceType)
      (("  instance_type = \"").toList ++ escapeHCLString (strVal props.instanceType) ++ ("\"").toList)
    ++ pushIf (truthyStr props.keyName)
      (("  key_name      = \"").toList ++ escapeHCLString (strVal props.keyName) ++ ("\"").toList)
    ++ pushIf (truthySGs props.securityGroups)
      (("  security_groups = [").toList
        ++ joinSep ((", ").toList)
          ((sgVal props.securityGroups).map
            (fun sg => ("\"").toList ++ escapeHCLString sg ++ ("\"").toList))
        ++ ("]").toList)
    ++ tagsSegment node.data.label resourceName
    ++ depSeg
    ++ [("\x7d").toList])

/-- The lines pushed by the EC2 emitter. -/
def ec2Lines (node : Node) (resourceName : Str) (edges : List Edge)
    (nodes : List Node) : List Str :=
  ec2LinesWith node resourceName (dependsOnSegment node.id edges nodes)

/-- EC2 emitter (generateEC2Block): its pushed lines joined by newlines. -/
def generateEC2Block (node : Node) (resourceName : Str) (edges : List Edge)
    (nodes : List Node) : Str :=
  joinSep nl (ec2Lines node resourceName edges nodes)

/-- The declaration lines of the auxiliary versioning block. -/
def s3VersioningTail (resourceName : Str) : List Str :=
  [("resource \"aws_s3_bucket_versioning\" \"").toList ++ resourceName ++ ("_versioning\" \x7b").toList,
   ("  bucket = aws_s3_bucket.").toList ++ resourceName ++ (".id").toList,
   [],
   ("  versioning_configuration \x7b").toList,
   ("    status = \"Enabled\"").toList,
   ("  \x7d").toList,
   ("\x7d").toList]

/-- Auxiliary versioning block lines appended by the S3 emitter: two
    leading blank lines, then the declaration. -/
def s3VersioningLines (resourceName : Str) : List Str :=
  [] :: [] :: s3VersioningTail resourceName

/-- The declaration lines of the auxiliary encryption block. -/
def s3EncryptionTail (resourceName : Str) : List Str :=
  [("resource \"aws_s3_bucket_server_side_encryption_configuration\" \"").toList
     ++ resourceName ++ ("_encryption\" \x7b").toList,
   ("  bucket = aws_s3_bucket.").toList ++ resourceName ++ (".id").toList,
   [],
   ("  rule \x7b").toList,
   ("    apply_server_side_encryption_by_default \x7b").toList,
   ("      sse_algorithm = \"AES256\"").toList,
   ("    \x7d").toList,
   ("  \x7d").toList,
   ("\x7d").toList]

/-- Auxiliary encryption block lines appended by the S3 emitter. -/
def s3EncryptionLines (resourceName : Str) : List Str :=
  [] :: [] :: s3EncryptionTail resourceName

/-- The lines pushed for the primary bucket block of the S3 emitter,
    given the depends_on segment. -/
def s3PrimaryLinesWith (node : Node) (resourceName : Str) (depSeg : List Str) : List Str :=
  let props := node.data.properties
  (
    [("resource \"aws_s3_bucket\" \"").toList ++ resourceName ++ ("\" \x7b").toList]
    ++ pushIf (truthyStr props.bucketName)
      (("  bucket = \"").toList ++ escapeHCLString (strVal props.bucketName) ++ ("\"").toList)
    ++ tagsSegment node.data.label resourceName
    ++ depSeg
    ++ [("\x7d").toList])

/-- The lines pushed for the primary bucket block of the S3 emitter. -/
def s3PrimaryLines (node : Node) (resourceName : Str) (edges : List Edge)
    (nodes : List Node) : List Str :=
  s3PrimaryLinesWith node resourceName (dependsOnSegment node.id edges nodes)

/-- S3 emitter (generateS3Block): primary bucket block, then the
    versioning and encryption auxiliary blocks appended independently. -/
def generateS3Block (node : Node) (resourceName : Str) (edges : List Edge)
    (nodes : List Node) : Str :=
  let props := node.data.properties
  let block := joinSep nl (s3PrimaryLines node resourceName edges nodes)
  let block := if truthyBool props.versioning
    then block ++ joinSep nl (s3VersioningLines resourceName) else block
  let block := if truthyBool props.encryption
    then block ++ joinSep nl (s3EncryptionLines resourceName) else block
  block

/-- The versioning lines as a line-list segment of the whole S3 output:
    one separating blank line, then the block lines. -/
def s3VersioningSegment (b : Bool) (resourceName : Str) : List Str :=
  if b then [] :: s3VersioningTail resourceName else []

/-- The encryption lines as a line-list segment of the whole S3 output. -/
def s3EncryptionSegment (b : Bool) (resourceName : Str) : List Str :=
  if b then [] :: s3EncryptionTail resourceName else []

/-- The full line list of the S3 emitter output (proved below to join to
    generateS3Block). -/
def s3CombinedLines (node : Node) (resourceName : Str) (edges : List Edge)
    (nodes : List Node) : List Str :=
  s3PrimaryLines node resourceName edges nodes
  ++ s3VersioningSegment (truthyBool node.data.properties.versioning) resourceName
  ++ s3EncryptionSegment (truthyBool node.data.properties.encryption) resourceName

/-- The lines pushed by the RDS emitter, given the depends_on segment. -/
def rdsLinesWith (node : Node) (resourceName : Str) (depSeg : List Str) : List Str :=
  let props := node.data.properties
  (
    [("resource \"aws_db_instance\" \"").toList ++ resourceName ++ ("\" \x7b").toList]
    ++ pushIf (truthyNat props.allocatedStorage)
      (("  allocated_storage    = ").toList ++ natToChars (natVal props.allocatedStorage))
    ++ pushIf (truthyStr props.engine)
      (("  engine               = \"").toList ++ escapeHCLString (strVal props.engine) ++ ("\"").toList)
    ++ pushIf (truthyStr props.instanceClass)
      (("  instance_class       = \"").toList ++ escapeHCLString (strVal props.instanceClass) ++ ("\"").toList)
    ++ pushIf (truthyStr props.dbName)
      (("  db_name              = \"").toList ++ escapeHCLString (strVal props.dbName) ++ ("\"").toList)
    ++ [("  username             = \"admin\"").toList,
        ("  password             = \"changeme123\"").toList,
        ("  skip_final_snapshot  = true").toList]
    ++ tagsSegment node.data.label resourceName
    ++ depSeg
    ++ [("\x7d").toList])

/-- The lines pushed by the RDS emitter. -/
def rdsLines (node : Node) (resourceName : Str) (edges : List Edge)
    (nodes : List Node) : List Str :=
  rdsLinesWith node resourceName (dependsOnSegment node.id edges nodes)

/-- RDS emitter (generateRDSBlock). -/
def generateRDSBlock (node : Node) (resourceName : Str) (edges : List Edge)
    (nodes : List Node) : Str :=
  joinSep nl (rdsLines node resourceName edges nodes)

/-- The lines pushed by the Lambda emitter, given the depends_on segment. -/
def lambdaLinesWith (node : Node) (resourceName : Str) (depSeg : List Str) : List Str :=
  let props := node.data.properties
  (
    [("resource \"aws_lambda_function\" \"").toList ++ resourceName ++ ("\" \x7b").toList]
    ++ pushIf (truthyStr props.functionName)
      (("  function_name = \"").toList ++ escapeHCLString (strVal props.functionName) ++ ("\"").toList)
    ++ pushIf (truthyStr props.runtime)
      (("  runtime       = \"").toList ++ escapeHCLString (strVal props.runtime) ++ ("\"").toList)
    ++ pushIf (truthyStr props.handler)
      (("  handler       = \"").toList ++ escapeHCLString (strVal props.handler) ++ ("\"").toList)
    ++ [("  role          = aws_iam_role.lambda_role.arn").toList,
        ("  filename      = \"lambda_function.zip\"").toList]
    ++ pushIf (truthyNat props.memory)
      (("  memory_size   = ").toList ++ natToChars (natVal props.memory))
    ++ tagsSegment node.data.label resourceName
    ++ depSeg
    ++ [("\x7d").toList])

/-- The lines pushed by the Lambda emitter. -/
def lambdaLines (node : Node) (resourceName : Str) (edges : List Edge)
    (nodes : List Node) : List Str :=
  lambdaLinesWith node resourceName (dependsOnSegment node.id edges nodes)

/-- Lambda emitter (generateLambdaBlock). -/
def generateLambdaBlock (node : Node) (resourceName : Str) (edges : List Edge)
    (nodes : List Node) : Str :=
  joinSep nl (lambdaLines node resourceName edges nodes)

/-- The lines pushed by the VPC emitter, given the depends_on segment;
    the DNS flags test presence, not truthiness, so false is emitted. -/
def vpcLinesWith (node : Node) (resourceName : Str) (depSeg : List Str) : List Str :=
  let props := node.data.properties
  (
    [("resource \"aws_vpc\" \"").toList ++ resourceName ++ ("\" \x7b").toList]
    ++ pushIf (truthyStr props.cidrBlock)
      (("  cidr_block           = \"").toList ++ escapeHCLString (strVal props.cidrBlock) ++ ("\"").toList)
    ++ pushIf props.enableDnsHostnames.isSome
      (("  enable_dns_hostnames = ").toList ++ boolToChars (props.enableDnsHostnames.getD false))
    ++ pushIf props.enableDnsSupport.isSome
      (("  enable_dns_support   = ").toList ++ boolToChars (props.enableDnsSupport.getD false))
    ++ tagsSegment node.data.label resourceName
    ++ depSeg
    ++ [("\x7d").toList])

/-- The lines pushed by the VPC emitter. -/
def vpcLines (node : Node) (resourceName : Str) (edges : List Edge)
    (nodes : List Node) : List Str :=
  vpcLinesWith node resourceName (dependsOnSegment node.id edges nodes)

/-- VPC emitter (generateVPCBlock). -/
def generateVPCBlock (node : Node) (resourceName : Str) (edges : List Edge)
    (nodes : List Node) : Str :=
  joinSep nl (vpcLines node resourceName edges nodes)

/-- The lines pushed by the ALB emitter, given the depends_on segment. -/
def albLinesWith (node : Node) (resourceName : Str) (depSeg : List Str) : List Str :=
  let props := node.data.properties
  (
    [("resource \"aws_lb\" \"").toList ++ resourceName ++ ("\" \x7b").toList]
    ++ pushIf (truthyStr props.name)
      (("  name               = \"").toList ++ escapeHCLString (strVal props.name) ++ ("\"").toList)
    ++ [("  load_balancer_type = \"application\"").toList]
    ++ pushIf (truthyStr props.scheme)
      (("  internal           = ").toList
        ++ boolToChars (decide (strVal props.scheme = ("internal").toList)))
    ++ pushIf (truthyStr props.ipAddressType)
      (("  ip_address_type    = \"").toList ++ escapeHCLString (strVal props.ipAddressType) ++ ("\"").toList)
    ++ [("  subnets            = []  # Add subnet IDs").toList]
    ++ tagsSegment node.data.label resourceName
    ++ depSeg
    ++ [("\x7d").toList])

/-- The lines pushed by the ALB emitter. -/
def albLines (node : Node) (resourceName : Str) (edges : List Edge)
    (nodes : List Node) : List Str :=
  albLinesWith node resourceName (dependsOnSegment node.id edges nodes)

/-- ALB emitter (generateALBBlock). -/
def generateALBBlock (node : Node) (resourceName : Str) (edges : List Edge)
    (nodes : List Node) : Str :=
  joinSep nl (albLines node resourceName edges nodes)

/-- The lines pushed by the API Gateway emitter, given the depends_on
    segment. -/
def apiGatewayLinesWith (node : Node) (resourceName : Str) (depSeg : List Str) : List Str :=
  let props := node.data.properties
  (
    [("resource \"aws_apigatewayv2_api\" \"").toList ++ resourceName ++ ("\" \x7b").toList]
    ++ pushIf (truthyStr props.name)
      (("  name          = \"").toList ++ escapeHCLString (strVal props.name) ++ ("\"").toList)
    ++ pushIf (truthyStr props.protocolType)
      (("  protocol_type = \"").toList ++ escapeHCLString (strVal props.protocolType) ++ ("\"").toList)
    ++ (if truthyBool props.corsEnabled then
        [[], ("  cors_configuration \x7b").toList,
         ("    allow_origins = [\"*\"]").toList,
         ("    allow_methods = [\"*\"]").toList,
         ("    allow_headers = [\"*\"]").toList,
         ("  \x7d").toList]
        else [])
    ++ tagsSegment node.data.label resourceName
    ++ depSeg
    ++ [("\x7d").toList])

/-- The lines pushed by the API Gateway emitter. -/
def apiGatewayLines (node : Node) (resourceName : Str) (edges : List Edge)
    (nodes : List Node) : List Str :=
  apiGatewayLinesWith node resourceName (dependsOnSegment node.id edges nodes)

/-- API Gateway emitter (generateAPIGatewayBlock). -/
def generateAPIGatewayBlock (node : Node) (resourceName : Str) (edges : List Edge)
    (nodes : List Node) : Str :=
  joinSep nl (apiGatewayLines node resourceName edges nodes)

/-- The lines pushed by the DynamoDB emitter, given the depends_on
    segment. -/
def dynamoDBLinesWith (node : Node) (resourceName : Str) (depSeg : List Str) : List Str :=
  let props := node.data.properties
  (
    [("resource \"aws_dynamodb_table\" \"").toList ++ resourceName ++ ("\" \x7b").toList]
    ++ pushIf (truthyStr props.tableName)
      (("  name         = \"").toList ++ escapeHCLString (strVal props.tableName) ++ ("\"").toList)
    ++ pushIf (truthyStr props.billingMode)
      (("  billing_mode = \"").toList ++ escapeHCLString (strVal props.billingMode) ++ ("\"").toList)
    ++ pushIf (truthyStr props.hashKey)
      (("  hash_key     = \"").toList ++ escapeHCLString (strVal props.hashKey) ++ ("\"").toList)
    ++ [[], ("  attribute \x7b").toList,
        ("    name = \"").toList
          ++ escapeHCLString (jsOr (strVal props.hashKey) (("id").toList)) ++ ("\"").toList,
        ("    type = \"S\"").toList,
        ("  \x7d").toList]
    ++ tagsSegment node.data.label resourceName
    ++ depSeg
    ++ [("\x7d").toList])

/-- The lines pushed by the DynamoDB emitter. -/
def dynamoDBLines (node : Node) (resourceName : Str) (edges : List Edge)
    (nodes : List Node) : List Str :=
  dynamoDBLinesWith node resourceName (dependsOnSegment node.id edges nodes)

/-- DynamoDB emitter (generateDynamoDBBlock). -/
def generateDynamoDBBlock (node : Node) (resourceName : Str) (edges : List Edge)
    (nodes : List Node) : Str :=
  joinSep nl (dynamoDBLines node resourceName edges nodes)

/-- The lines pushed by the WAF emitter, given the depends_on segment. -/
def wafLinesWith (node : Node) (resourceName : Str) (depSeg : List Str) : List Str :=
  let props := node.data.properties
  (
    [("resource \"aws_wafv2_web_acl\" \"").toList ++ resourceName ++ ("\" \x7b").toList]
    ++ pushIf (truthyStr props.name)
      (("  name  = \"").toList ++ escapeHCLString (strVal props.name) ++ ("\"").toList)
    ++ pushIf (truthyStr props.scope)
      (("  scope = \"").toList ++ escapeHCLString (strVal props.scope) ++ ("\"").toList)
    ++ [[], ("  default_action \x7b").toList,
        (if props.defaultAction = some (("BLOCK").toList)
         then ("    block \x7b\x7d").toList else ("    allow \x7b\x7d").toList),
        ("  \x7d").toList]
    ++ [[], ("  visibility_config \x7b").toList,
        ("    cloudwatch_metrics_enabled = true").toList,
        ("    metric_name                = \"waf-metric\"").toList,
        ("    sampled_requests_enabled   = true").toList,
        ("  \x7d").toList]
    ++ tagsSegment node.data.label resourceName
    ++ depSeg
    ++ [("\x7d").toList])

/-- The lines pushed by the WAF emitter. -/
def wafLines (node : Node) (resourceName : Str) (edges : List Edge)
    (nodes : List Node) : List Str :=
  wafLinesWith node resourceName (dependsOnSegment node.id edges nodes)

/-- WAF emitter (generateWAFBlock). -/
def generateWAFBlock (node : Node) (resourceName : Str) (edges : List Edge)
    (nodes : List Node) : Str :=
  joinSep nl (wafLines node resourceName edges nodes)

/-- Per-node dispatch (generateResourceBlock): reject a node whose label
    is missing, then switch on the kind tag, unknown kinds yielding the
    empty string. -/
def generateResourceBlock (node : Node) (edges : List Edge) (nodes : List Node) :
    Except Str Str :=
  if node.data.label = [] then
    .error (("Node ").toList ++ node.id ++ (" is missing required data").toList)
  else
    let resourceName := sanitizeResourceName (jsOr node.data.label node.id)
    if node.type = ("ec2").toList then .ok (generateEC2Block node resourceName edges nodes)
    else if node.type = ("lambda").toList then .ok (generateLambdaBlock node resourceName edges nodes)
    else if node.type = ("vpc").toList then .ok (generateVPCBlock node resourceName edges nodes)
    else if node.type = ("alb").toList then .ok (generateALBBlock node resourceName edges nodes)
    else if node.type = ("apigateway").toList then .ok (generateAPIGatewayBlock node resourceName edges nodes)
    else if node.type = ("s3").toList then .ok (generateS3Block node resourceName edges nodes)
    else if node.type = ("rds").toList then .ok (generateRDSBlock node resourceName edges nodes)
    else if node.type = ("dynamodb").toList then .ok (generateDynamoDBBlock node resourceName edges nodes)
    else if node.type = ("waf").toList then .ok (generateWAFBlock node resourceName edges nodes)
    else .ok []

/-- The fixed terraform configuration block (generateTerraformBlock). -/
def generateTerraformBlock : Str :=
  joinSep nl
    [("terraform \x7b").toList,
     ("  required_version = \">= 1.5.0\"").toList,
     [],
     ("  required_providers \x7b").toList,
     ("    aws = \x7b").toList,
     ("      source  = \"hashicorp/aws\"").toList,
     ("      version = \"~> 5.0\"").toList,
     ("    \x7d").toList,
     ("  \x7d").toList,
     ("\x7d").toList]

/-- Sentinel returned for an empty node list. -/
def emptyGraphMarker : Str := ("# No resources to generate").toList

/-- Sentinel returned when no node produced a block. -/
def noValidResourcesMarker : Str := ("# No valid resources to generate").toList

/-- One iteration of the generator loop: skip a node with a falsy id or
    kind, skip emitter errors, and drop the empty string produced for
    unknown kinds. -/
def blockOf (edges : List Edge) (nodes : List Node) (node : Node) : Option Str :=
  if node.id = [] ∨ node.type = [] then none
  else match generateResourceBlock node edges nodes with
    | .error _ => none
    | .ok block => if block = [] then none else some block

/-- The resourceBlocks array accumulated by the generator loop. -/
def resourceBlocksOf (nodes : List Node) (edges : List Edge) : List Str :=
  nodes.filterMap (blockOf edges nodes)

/-- Whole-graph generator (generateTerraform) on array inputs: sentinel
    for an empty graph, otherwise the terraform block, a spacer, and the
    per-node blocks joined with blank lines; a second sentinel when no
    block was produced. -/
def generateTerraform (nodes : List Node) (edges : List Edge) : Str :=
  if nodes = [] then emptyGraphMarker
  else
    let resourceBlocks := resourceBlocksOf nodes edges
    if resourceBlocks = [] then noValidResourcesMarker
    else joinSep (("\n\n").toList) ([generateTerraformBlock, []] ++ resourceBlocks)

/-- A JavaScript argument that is either an array of a or anything else,
    as discriminated by the Array.isArray guard. -/
inductive JSInput (α : Type) where
  | arr (xs : List α)
  | notArray
deriving DecidableEq

/-- The generator as exported: non-array arguments are the only path to a
    thrown error (the inner throw rewrapped by the outer catch). -/
def generateTerraformTop : JSInput Node → JSInput Edge → Except Str Str
  | .arr nodes, .arr edges => .ok (generateTerraform nodes edges)
  | _, _ => .error (("Terraform generation failed: Invalid input: nodes and edges must be arrays").toList)

/- ## Observation functions: lines and declaration headers -/

/-- Split a string at newline characters (JavaScript split on newline);
    used to state which lines the generated text consists of. -/
def splitLines : Str → List Str
  | [] => [[]]
  | c :: rest =>
    if c = '\n' then [] :: splitLines rest
    else (c :: (splitLines rest).headD []) :: (splitLines rest).tail

/-- Does the pattern p begin the string s? -/
def beginsWith : Str → Str → Bool
  | [], _ => true
  | _ :: _, [] => false
  | p :: ps, c :: cs => p == c && beginsWith ps cs

/-- A line that opens a resource declaration block. -/
def isHeaderLine (l : Str) : Bool := beginsWith (("resource \"").toList) l

/-- Number of declaration headers in a generated text: the number of its
    lines that open a resource declaration. -/
def countHeaders (s : Str) : Nat := (splitLines s).countP isHeaderLine

/-- The resolved reference list built inside generateDependsOn. -/
def refsOf (nodeId : Str) (edges : List Edge) (nodes : List Node) : List Str :=
  ((findDependencies nodeId edges).map (refOfDep nodes)).reduceOption

/-- Number of declaration headers the generator contributes for one node:
    none for an invalid or unsupported node, one for a supported node,
    plus one per enabled S3 capability. -/
def nodeHeaderCount (node : Node) : Nat :=
  if node.id = [] ∨ node.type = [] then 0
  else if node.data.label = [] then 0
  else if supportedType node.type then
    (if node.type = ("s3").toList then
      1 + (if truthyBool node.data.properties.versioning then 1 else 0)
        + (if truthyBool node.data.properties.encryption then 1 else 0)
     else 1)
  else 0

/- ## Stateful model of the process-wide caches

The source keeps two module-level Maps: sanitizedNameCache (persists
across generate calls) and dependencyCache (cleared at the start of each
call).  The cached generator below threads them explicitly; its
equivalence with the pure generator is the subject of the determinism
claim. -/

/-- The two module-level caches, as association lists. -/
structure GenCaches where
  sanitizedNameCache : List (Str × Str)
  dependencyCache : List (Str × List Str)
deriving DecidableEq

/-- Map.get: first binding of the key, if any. -/
def cacheLookup {β : Type} (k : Str) : List (Str × β) → Option β
  | [] => none
  | kv :: rest => if kv.1 = k then some kv.2 else cacheLookup k rest

/-- sanitizeResourceName with its cache, as in the source: return the
    cached value on a hit, otherwise compute and record. -/
def sanitizeResourceNameC (name : Str) (st : GenCaches) : Str × GenCaches :=
  match cacheLookup name st.sanitizedNameCache with
  | some cached => (cached, st)
  | none =>
    let result := sanitizeResourceName name
    (result, { st with sanitizedNameCache := (name, result) :: st.sanitizedNameCache })

/-- findDependencies with its cache, as in the source. -/
def findDependenciesC (nodeId : Str) (edges : List Edge) (st : GenCaches) :
    List Str × GenCaches :=
  match cacheLookup nodeId st.dependencyCache with
  | some cached => (cached, st)
  | none =>
    let dependencies :=
      (edges.filter (fun edge => edge.target == nodeId)).map (fun edge => edge.source)
    (dependencies, { st with dependencyCache := (nodeId, dependencies) :: st.dependencyCache })

/-- The reference-building map of generateDependsOn with the cached
    sanitizer threaded through (nulls dropped as in filter(Boolean)). -/
def depRefsC : List Str → List Node → GenCaches → List Str × GenCaches
  | [], _, st => ([], st)
  | depId :: rest, nodes, st =>
    match nodes.find? (fun n => n.id == depId) with
    | none => depRefsC rest nodes st
    | some depNode =>
      let p := sanitizeResourceNameC (jsOr depNode.data.label depNode.id) st
      let r := terraformTypeFor depNode.type ++ (".").toList ++ p.1
      let q := depRefsC rest nodes p.2
      (r :: q.1, q.2)

/-- generateDependsOn with the caches threaded through. -/
def generateDependsOnC (nodeId : Str) (edges : List Edge) (nodes : List Node)
    (st : GenCaches) : Str × GenCaches :=
  let d := findDependenciesC nodeId edges st
  if d.1 = [] then ([], d.2)
  else
    let r := depRefsC d.1 nodes d.2
    if r.1 = [] then ([], r.2)
    else (("  depends_on = [").toList ++ joinSep ((", ").toList) r.1 ++ ("]\n").toList, r.2)

/-- The per-emitter depends_on push with the caches threaded through. -/
def dependsOnSegmentC (nodeId : Str) (edges : List Edge) (nodes : List Node)
    (st : GenCaches) : List Str × GenCaches :=
  let d := generateDependsOnC nodeId edges nodes st
  (if d.1 = [] then [] else [[], jsTrim d.1], d.2)

/-- EC2 emitter with the caches threaded through. -/
def generateEC2BlockC (node : Node) (resourceName : Str) (edges : List Edge)
    (nodes : List Node) (st : GenCaches) : Str × GenCaches :=
  let s := dependsOnSegmentC node.id edges nodes st
  (joinSep nl (ec2LinesWith node resourceName s.1), s.2)

/-- S3 emitter with the caches threaded through. -/
def generateS3BlockC (node : Node) (resourceName : Str) (edges : List Edge)
    (nodes : List Node) (st : GenCaches) : Str × GenCaches :=
  let s := dependsOnSegmentC node.id edges nodes st
  let block := joinSep nl (s3PrimaryLinesWith node resourceName s.1)
  let block := if truthyBool node.data.properties.versioning
    then block ++ joinSep nl (s3VersioningLines resourceName) else block
  let block := if truthyBool node.data.properties.encryption
    then block ++ joinSep nl (s3EncryptionLines resourceName) else block
  (block, s.2)

/-- RDS emitter with the caches threaded through. -/
def generateRDSBlockC (node : Node) (resourceName : Str) (edges : List Edge)
    (nodes : List Node) (st : GenCaches) : Str × GenCaches :=
  let s := dependsOnSegmentC node.id edges nodes st
  (joinSep nl (rdsLinesWith node resourceName s.1), s.2)

/-- Lambda emitter with the caches threaded through. -/
def generateLambdaBlockC (node : Node) (resourceName : Str) (edges : List Edge)
    (nodes : List Node) (st : GenCaches) : Str × GenCaches :=
  let s := dependsOnSegmentC node.id edges nodes st
  (joinSep nl (lambdaLinesWith node resourceName s.1), s.2)

/-- VPC emitter with the caches threaded through. -/
def generateVPCBlockC (node : Node) (resourceName : Str) (edges : List Edge)
    (nodes : List Node) (st : GenCaches) : Str × GenCaches :=
  let s := dependsOnSegmentC node.id edges nodes st
  (joinSep nl (vpcLinesWith node resourceName s.1), s.2)

/-- ALB emitter with the caches threaded through. -/
def generateALBBlockC (node : Node) (resourceName : Str) (edges : List Edge)
    (nodes : List Node) (st : GenCaches) : Str × GenCaches :=
  let s := dependsOnSegmentC node.id edges nodes st
  (joinSep nl (albLinesWith node resourceName s.1), s.2)

/-- API Gateway emitter with the caches threaded through. -/
def generateAPIGatewayBlockC (node : Node) (resourceName : Str) (edges : List Edge)
    (nodes : List Node) (st : GenCaches) : Str × GenCaches :=
  let s := dependsOnSegmentC node.id edges nodes st
  (joinSep nl (apiGatewayLinesWith node resourceName s.1), s.2)

/-- DynamoDB emitter with the caches threaded through. -/
def generateDynamoDBBlockC (node : Node) (resourceName : Str) (edges : List Edge)
    (nodes : List Node) (st : GenCaches) : Str × GenCaches :=
  let s := dependsOnSegmentC node.id edges nodes st
  (joinSep nl (dynamoDBLinesWith node resourceName s.1), s.2)

/-- WAF emitter with the caches threaded through. -/
def generateWAFBlockC (node : Node) (resourceName : Str) (edges : List Edge)
    (nodes : List Node) (st : GenCaches) : Str × GenCaches :=
  let s := dependsOnSegmentC node.id edges nodes st
  (joinSep nl (wafLinesWith node resourceName s.1), s.2)

/-- generateResourceBlock with the caches threaded through. -/
def generateResourceBlockC (node : Node) (edges : List Edge) (nodes : List Node)
    (st : GenCaches) : Except Str Str × GenCaches :=
  if node.data.label = [] then
    (.error (("Node ").toList ++ node.id ++ (" is missing required data").toList), st)
  else
    let p := sanitizeResourceNameC (jsOr node.data.label node.id) st
    if node.type = ("ec2").toList then
      let r := generateEC2BlockC node p.1 edges nodes p.2
      (.ok r.1, r.2)
    else if node.type = ("lambda").toList then
      let r := generateLambdaBlockC node p.1 edges nodes p.2
      (.ok r.1, r.2)
    else if node.type = ("vpc").toList then
      let r := generateVPCBlockC node p.1 edges nodes p.2
      (.ok r.1, r.2)
    else if node.type = ("alb").toList then
      let r := generateALBBlockC node p.1 edges nodes p.2
      (.ok r.1, r.2)
    else if node.type = ("apigateway").toList then
      let r := generateAPIGatewayBlockC node p.1 edges nodes p.2
      (.ok r.1, r.2)
    else if node.type = ("s3").toList then
      let r := generateS3BlockC node p.1 edges nodes p.2
      (.ok r.1, r.2)
    else if node.type = ("rds").toList then
      let r := generateRDSBlockC node p.1 edges nodes p.2
      (.ok r.1, r.2)
    else if node.type = ("dynamodb").toList then
      let r := generateDynamoDBBlockC node p.1 edges nodes p.2
      (.ok r.1, r.2)
    else if node.type = ("waf").toList then
      let r := generateWAFBlockC node p.1 edges nodes p.2
      (.ok r.1, r.2)
    else (.ok [], p.2)

/-- The generator loop with the caches threaded through. -/
def resourceBlocksC : List Node → List Edge → List Node → GenCaches →
    List Str × GenCaches
  | [], _, _, st => ([], st)
  | node :: rest, edges, allNodes, st =>
    if node.id = [] ∨ node.type = [] then resourceBlocksC rest edges allNodes st
    else
      let r := generateResourceBlockC node edges allNodes st
      match r.1 with
      | .error _ => resourceBlocksC rest edges allNodes r.2
      | .ok block =>
        let q := resourceBlocksC rest edges allNodes r.2
        (if block = [] then q.1 else block :: q.1, q.2)

/-- generateTerraform with the caches threaded through: the empty-graph
    return happens before the dependency cache is cleared, as in the
    source (the clear is on the path after the length check). -/
def generateTerraformC (nodes : List Node) (edges : List Edge) (st0 : GenCaches) :
    Str × GenCaches :=
  if nodes = [] then (emptyGraphMarker, st0)
  else
    let st := { st0 with dependencyCache := [] }
    let r := resourceBlocksC nodes edges nodes st
    if r.1 = [] then (noValidResourcesMarker, r.2)
    else (joinSep (("\n\n").toList) ([generateTerraformBlock, []] ++ r.1), r.2)

/-- A sanitized-name cache is valid when every binding stores the pure
    sanitizer's output for its key; all reachable caches are. -/
def ValidSanCache (c : List (Str × Str)) : Prop :=
  ∀ kv ∈ c, kv.2 = sanitizeResourceName kv.1

/-- A dependency cache is valid for an edge list when every binding
    stores the pure lookup's output for its key. -/
def ValidDepCache (edges : List Edge) (d : List (Str × List Str)) : Prop :=
  ∀ kv ∈ d, kv.2 = findDependencies kv.1 edges

/-- The identifier grammar of the specification: first character a
    lowercase letter or underscore, the rest lowercase letters, digits or
    underscores. -/
def matchesIdentGrammar : Str → Bool
  | [] => false
  | c :: rest =>
    if (('a' ≤ c ∧ c ≤ 'z') ∨ c = '_') ∧
       (∀ d ∈ rest, ('a' ≤ d ∧ d ≤ 'z') ∨ ('0' ≤ d ∧ d ≤ '9') ∨ d = '_')
    then true else false

/-- Does the string contain two consecutive underscores? -/
def hasDoubleUnderscore : Str → Bool
  | c :: d :: rest =>
    if c = '_' ∧ d = '_' then true else hasDoubleUnderscore (d :: rest)
  | _ => false

/- ## Infrastructure lemmas -/

theorem splitLines_ne_nil (s : Str) : splitLines s ≠ [] := by
  cases s with
  | nil => simp [splitLines]
  | cons c rest =>
    simp only [splitLines]
    split <;> simp

theorem splitLines_append_newline (a b : Str) :
    splitLines (a ++ '\n' :: b) = splitLines a ++ splitLines b := by
  induction a with
  | nil => simp [splitLines]
  | cons c a ih =>
    simp only [List.cons_append, splitLines]
    by_cases hc : c = '\n'
    · simp [hc, ih]
    · simp only [if_neg hc]
      simp only [List.append_eq]
      rw [ih]
      cases h : splitLines a with
      | nil => exact absurd h (splitLines_ne_nil a)
      | cons x xs => simp

theorem splitLines_noNl (a : Str) (h : '\n' ∉ a) : splitLines a = [a] := by
  induction a with
  | nil => simp [splitLines]
  | cons c a ih =>
    simp only [List.mem_cons, not_or] at h
    have hc : c ≠ '\n' := fun hh => h.1 hh.symm
    simp [splitLines, hc, ih h.2]

theorem nl_eq : nl = ['\n'] := rfl

theorem joinSep_cons_cons (sep x y : Str) (zs : List Str) :
    joinSep sep (x :: y :: zs) = x ++ sep ++ joinSep sep (y :: zs) := rfl

theorem joinSep_cons_head (sep : Str) (c : Char) (t : Str) (xs : List Str) :
    joinSep sep ((c :: t) :: xs) = c :: joinSep sep (t :: xs) := by
  cases xs <;> simp [joinSep]

theorem joinSep_splitLines (s : Str) : joinSep nl (splitLines s) = s := by
  induction s with
  | nil => simp [splitLines, joinSep]
  | cons c rest ih =>
    by_cases hc : c = '\n'
    · subst hc
      simp only [splitLines, if_pos rfl]
      cases h : splitLines rest with
      | nil => exact absurd h (splitLines_ne_nil rest)
      | cons x xs =>
        rw [h] at ih
        simp [joinSep_cons_cons, nl_eq, joinSep_cons_head]
        cases xs with
        | nil => simpa [joinSep] using ih
        | cons y ys => simpa [joinSep_cons_cons, nl_eq] using ih
    · simp only [splitLines, if_neg hc]
      cases h : splitLines rest with
      | nil => exact absurd h (splitLines_ne_nil rest)
      | cons x xs =>
        rw [h] at ih
        rw [joinSep_cons_head]
        simpa [h] using congrArg (fun t => c :: t) ih

theorem joinSep_append (sep : Str) (A B : List Str) (hA : A ≠ []) (hB : B ≠ []) :
    joinSep sep (A ++ B) = joinSep sep A ++ sep ++ joinSep sep B := by
  induction A with
  | nil => exact absurd rfl hA
  | cons x A ih =>
    cases A with
    | nil =>
      cases B with
      | nil => exact absurd rfl hB
      | cons y ys => simp [joinSep_cons_cons, joinSep]
    | cons x2 A2 =>
      have h2 := ih (by simp)
      simp only [List.cons_append, joinSep_cons_cons] at h2 ⊢
      rw [h2]
      simp [List.append_assoc]

theorem splitLines_joinSep (L : List Str) (hL : L ≠ []) (h : ∀ l ∈ L, '\n' ∉ l) :
    splitLines (joinSep nl L) = L := by
  induction L with
  | nil => exact absurd rfl hL
  | cons x L ih =>
    cases L with
    | nil => exact splitLines_noNl x (h x (by simp))
    | cons y L2 =>
      have hx : joinSep nl (x :: y :: L2) = x ++ '\n' :: joinSep nl (y :: L2) := by
        rw [joinSep_cons_cons, nl_eq]
        simp
      rw [hx, splitLines_append_newline, splitLines_noNl x (h x (by simp)),
        ih (by simp) (fun l hl => h l (by simp [hl]))]
      simp

theorem isHeaderLine_nil : isHeaderLine [] = false := rfl

theorem countHeaders_joinSep_blocks (B : List Str) :
    countHeaders (joinSep (("\n\n").toList) B) = (B.map countHeaders).sum := by
  induction B with
  | nil => decide
  | cons x B ih =>
    cases B with
    | nil => simp [joinSep]
    | cons y B2 =>
      have hx : joinSep (("\n\n").toList) (x :: y :: B2)
          = x ++ '\n' :: ('\n' :: joinSep (("\n\n").toList) (y :: B2)) := by
        rw [joinSep_cons_cons]
        simp [(rfl : ("\n\n").toList = ['\n', '\n'])]
      rw [countHeaders, hx, splitLines_append_newline]
      have h2 : splitLines ('\n' :: joinSep (("\n\n").toList) (y :: B2))
          = [] :: splitLines (joinSep (("\n\n").toList) (y :: B2)) := by
        simp [splitLines]
      rw [h2, List.countP_append, List.countP_cons]
      simp only [isHeaderLine_nil]
      rw [← countHeaders, ← countHeaders, ih]
      simp

theorem mem_splitLines_joinSep_blocks (B : List Str) (b : Str) (hb : b ∈ B) :
    ∀ l ∈ splitLines b, l ∈ splitLines (joinSep (("\n\n").toList) B) := by
  induction B with
  | nil => cases hb
  | cons x B ih =>
    cases B with
    | nil =>
      rcases List.mem_singleton.1 hb with rfl
      exact fun l hl => hl
    | cons y B2 =>
      have hx : joinSep (("\n\n").toList) (x :: y :: B2)
          = x ++ '\n' :: ('\n' :: joinSep (("\n\n").toList) (y :: B2)) := by
        rw [joinSep_cons_cons]
        simp [(rfl : ("\n\n").toList = ['\n', '\n'])]
      intro l hl
      rw [hx, splitLines_append_newline]
      rcases List.mem_cons.1 hb with rfl | hb2
      · exact List.mem_append_left _ hl
      · refine List.mem_append_right _ ?_
        have h2 : splitLines ('\n' :: joinSep (("\n\n").toList) (y :: B2))
            = [] :: splitLines (joinSep (("\n\n").toList) (y :: B2)) := by
          simp [splitLines]
        rw [h2]
        exact List.mem_cons_of_mem _ (ih hb2 l hl)

theorem infix_joinSep_of_mem (sep : Str) (L : List Str) (x : Str) (hx : x ∈ L) :
    x.IsInfix (joinSep sep L) := by
  induction L with
  | nil => cases hx
  | cons y L ih =>
    rcases List.mem_cons.1 hx with rfl | hx2
    · cases L with
      | nil => exact List.infix_refl x
      | cons z L2 =>
        rw [joinSep_cons_cons]
        exact ⟨[], sep ++ joinSep sep (z :: L2), by simp⟩
    · cases L with
      | nil => cases hx2
      | cons z L2 =>
        rw [joinSep_cons_cons]
        refine (ih hx2).trans ⟨y ++ sep, [], by simp⟩

theorem infix_of_mem_splitLines (l s : Str) (h : l ∈ splitLines s) : l.IsInfix s := by
  have hx := infix_joinSep_of_mem nl (splitLines s) l h
  rwa [joinSep_splitLines] at hx

/- ## Character-set lemmas -/

theorem mem_replaceChar (c : Char) (r : Str) (x : Char) :
    ∀ (s : Str), x ∈ replaceChar c r s → x ∈ r ∨ (x ∈ s ∧ x ≠ c)
  | [], h => by cases h
  | hd :: tl, h => by
    simp only [replaceChar, List.mem_append] at h
    rcases h with h | h
    · by_cases hc : hd = c
      · rw [if_pos hc] at h
        exact .inl h
      · rw [if_neg hc] at h
        rcases List.mem_singleton.1 h with rfl
        exact .inr ⟨by simp, hc⟩
    · rcases mem_replaceChar c r x tl h with h2 | ⟨h2, h3⟩
      · exact .inl h2
      · exact .inr ⟨by simp [h2], h3⟩

theorem noNl_escapeHCLString (s : Str) : '\n' ∉ escapeHCLString s := by
  intro h
  unfold escapeHCLString at h
  rcases mem_replaceChar _ _ _ _ h with h | ⟨h, -⟩
  · exact absurd h (by decide)
  rcases mem_replaceChar _ _ _ _ h with h | ⟨h, -⟩
  · exact absurd h (by decide)
  rcases mem_replaceChar _ _ _ _ h with h | ⟨h, hne⟩
  · exact absurd h (by decide)
  · exact hne rfl

theorem mem_collapseUnderscores (x : Char) :
    ∀ (s : Str), x ∈ collapseUnderscores s → x ∈ s
  | [], h => by rw [collapseUnderscores] at h; exact h
  | [c], h => by rw [collapseUnderscores] at h; exact h
  | c :: d :: rest, h => by
    rw [collapseUnderscores] at h
    by_cases hc : c = '_' ∧ d = '_'
    · rw [if_pos hc] at h
      have := mem_collapseUnderscores x (d :: rest) h
      exact List.mem_cons_of_mem _ this
    · rw [if_neg hc] at h
      rcases List.mem_cons.1 h with rfl | h2
      · simp
      · exact List.mem_cons_of_mem _ (mem_collapseUnderscores x (d :: rest) h2)

theorem mem_replaceLeadingDigit (x : Char) (s : Str) (h : x ∈ replaceLeadingDigit s) :
    x = '_' ∨ x ∈ s := by
  cases s with
  | nil => cases h
  | cons c cs =>
    rw [replaceLeadingDigit] at h
    split at h
    · rcases List.mem_cons.1 h with rfl | h2
      · exact .inl rfl
      · exact .inr (by simp [h2])
    · exact .inr h

theorem keptChar_sanitize (name : Str) : ∀ c ∈ sanitizeResourceName name, keptChar c = true := by
  intro c hc
  simp only [sanitizeResourceName] at hc
  split at hc
  · have hall : ∀ x ∈ ("resource").toList, keptChar x = true := by decide
    exact hall c hc
  · rcases mem_replaceLeadingDigit c _ (mem_collapseUnderscores c _ hc) with rfl | h2
    · decide
    · rcases List.mem_map.1 h2 with ⟨orig, -, horig⟩
      by_cases hk : keptChar orig = true
      · rw [if_pos hk] at horig
        rw [horig] at hk
        exact hk
      · rw [if_neg hk] at horig
        rw [← horig]
        decide

theorem noNl_sanitizeResourceName (name : Str) : '\n' ∉ sanitizeResourceName name := by
  intro h
  have := keptChar_sanitize name '\n' h
  exact absurd this (by decide)

theorem mem_natToCharsCore (x : Char) :
    ∀ (n : Nat) (acc : Str), x ∈ natToCharsCore n acc →
      x ∈ acc ∨ ∃ d, d < 10 ∧ x = digitChar d := by
  intro n
  induction n using Nat.strong_induction_on with
  | _ n ih =>
    intro acc hx
    unfold natToCharsCore at hx
    by_cases h : n < 10
    · rw [if_pos h] at hx
      rcases List.mem_cons.1 hx with rfl | h1
      · exact .inr ⟨n, h, rfl⟩
      · exact .inl h1
    · rw [if_neg h] at hx
      rcases ih (n / 10) (Nat.div_lt_self (by omega) (by omega)) _ hx with h1 | h1
      · rcases List.mem_cons.1 h1 with rfl | h2
        · exact .inr ⟨n % 10, Nat.mod_lt _ (by omega), rfl⟩
        · exact .inl h2
      · exact .inr h1

theorem noNl_natToChars (n : Nat) : '\n' ∉ natToChars n := by
  intro h
  rcases mem_natToCharsCore '\n' n [] h with h1 | ⟨d, hd, he⟩
  · cases h1
  · interval_cases d <;> exact absurd he (by decide)

theorem noNl_boolToChars (b : Bool) : '\n' ∉ boolToChars b := by
  cases b <;> decide

theorem noNl_terraformTypeFor (t : Str) : '\n' ∉ terraformTypeFor t := by
  unfold terraformTypeFor
  split_ifs <;> decide

theorem beginsWith_self (p r : Str) : beginsWith p (p ++ r) = true := by
  induction p with
  | nil => rfl
  | cons c ps ih => simp [beginsWith, ih]

theorem beginsWith_append_of_le (p : Str) :
    ∀ (l x : Str), p.length ≤ l.length → beginsWith p l = false →
      beginsWith p (l ++ x) = false := by
  induction p with
  | nil =>
    intro l x _ h
    simp [beginsWith] at h
  | cons q ps ih =>
    intro l x hlen h
    cases l with
    | nil => simp at hlen
    | cons c cs =>
      rw [List.cons_append]
      simp only [beginsWith] at h ⊢
      cases hqc : (q == c) with
      | false => simp [hqc]
      | true =>
        simp only [hqc, Bool.true_and] at h ⊢
        exact ih cs x (by simpa using hlen) h

theorem isHeaderLine_lit_append (lit x : Str)
    (hlen : (("resource \"").toList).length ≤ lit.length)
    (h : isHeaderLine lit = false) : isHeaderLine (lit ++ x) = false :=
  beginsWith_append_of_le _ lit x hlen h

theorem isHeaderLine_true_of_decomp (lit rest t : Str)
    (h : lit = ("resource \"").toList ++ t) : isHeaderLine (lit ++ rest) = true := by
  subst h
  rw [List.append_assoc]
  exact beginsWith_self _ _

theorem mem_pushIf {x l : Str} {b : Bool} : x ∈ pushIf b l ↔ (b = true ∧ x = l) := by
  cases b <;> simp [pushIf]

theorem countP_pushIf_zero (p : Str → Bool) (b : Bool) (l : Str) (h : p l = false) :
    (pushIf b l).countP p = 0 := by
  cases b <;> simp [pushIf, List.countP_cons, h]

theorem tagsSegment_noNl (label rn : Str) : ∀ l ∈ tagsSegment label rn, '\n' ∉ l := by
  intro l hl
  simp only [tagsSegment, List.mem_cons, List.not_mem_nil, or_false] at hl
  rcases hl with rfl | rfl | rfl | rfl
  · simp
  · decide
  · intro h
    rcases List.mem_append.1 h with h1 | h1
    · rcases List.mem_append.1 h1 with h2 | h2
      · exact absurd h2 (by decide)
      · exact noNl_escapeHCLString _ h2
    · exact absurd h1 (by decide)
  · decide

theorem tagsSegment_countP (label rn : Str) :
    (tagsSegment label rn).countP isHeaderLine = 0 := by
  have hname : isHeaderLine (("    Name = \"").toList
      ++ escapeHCLString (jsOr label rn) ++ ("\"").toList) = false := by
    rw [List.append_assoc]
    exact isHeaderLine_lit_append _ _ (by decide) (by decide)
  simp only [tagsSegment, List.countP_cons, List.countP_nil, isHeaderLine_nil, hname,
    (by decide : isHeaderLine (("  tags = \x7b").toList) = false),
    (by decide : isHeaderLine (("  \x7d").toList) = false)]
  simp

theorem noNl_joinSep : ∀ (sep : Str) (L : List Str), '\n' ∉ sep →
    (∀ x ∈ L, '\n' ∉ x) → '\n' ∉ joinSep sep L
  | sep, [], _, _ => by simp [joinSep]
  | sep, [x], _, h => by simpa [joinSep] using h x (by simp)
  | sep, x :: y :: zs, hsep, h => by
    rw [joinSep_cons_cons]
    simp only [List.mem_append, not_or]
    exact ⟨⟨h x (by simp), hsep⟩,
      noNl_joinSep sep (y :: zs) hsep (fun a ha => h a (by simp [List.mem_cons] at ha ⊢; tauto))⟩

/- ## Shape of the depends_on segment -/

theorem generateDependsOn_shape (nodeId : Str) (edges : List Edge) (nodes : List Node) :
    (refsOf nodeId edges nodes = [] ∧ generateDependsOn nodeId edges nodes = []) ∨
    (refsOf nodeId edges nodes ≠ [] ∧ generateDependsOn nodeId edges nodes =
      ("  depends_on = [").toList ++ joinSep ((", ").toList) (refsOf nodeId edges nodes)
        ++ ("]\n").toList) := by
  by_cases h1 : findDependencies nodeId edges = []
  · left
    constructor
    · rw [refsOf, h1]
      rfl
    · simp [generateDependsOn, h1]
  · by_cases h2 : refsOf nodeId edges nodes = []
    · left
      refine ⟨h2, ?_⟩
      rw [refsOf] at h2
      simp [generateDependsOn, h1, h2]
    · right
      refine ⟨h2, ?_⟩
      rw [refsOf] at h2
      simp [generateDependsOn, refsOf, h1, h2]

theorem jsTrim_dependsLine (J : Str) :
    jsTrim (("  depends_on = [").toList ++ J ++ ("]\n").toList)
      = ("depends_on = [").toList ++ J ++ ("]").toList := by
  rw [jsTrim]
  have h1 : ((("  depends_on = [").toList ++ J ++ ("]\n").toList).dropWhile jsWs)
      = ("depends_on = [").toList ++ (J ++ ("]\n").toList) := by
    rw [List.append_assoc, List.dropWhile_append,
      (by decide : (("  depends_on = [").toList).dropWhile jsWs = ("depends_on = [").toList)]
    simp
  rw [h1]
  have h2 : (("depends_on = [").toList ++ (J ++ ("]\n").toList)).reverse
      = '\n' :: ']' :: (J.reverse ++ (("depends_on = [").toList).reverse) := by
    simp [List.reverse_append]
  rw [h2]
  have h3 : (('\n' :: ']' :: (J.reverse ++ (("depends_on = [").toList).reverse)).dropWhile jsWs)
      = ']' :: (J.reverse ++ (("depends_on = [").toList).reverse) := by
    simp [List.dropWhile_cons, (by decide : jsWs '\n' = true), (by decide : jsWs ']' = false)]
  rw [h3]
  simp

theorem dependsOnSegment_shape (nodeId : Str) (edges : List Edge) (nodes : List Node) :
    (refsOf nodeId edges nodes = [] ∧ dependsOnSegment nodeId edges nodes = []) ∨
    (refsOf nodeId edges nodes ≠ [] ∧ dependsOnSegment nodeId edges nodes =
      [[], ("depends_on = [").toList ++ joinSep ((", ").toList) (refsOf nodeId edges nodes)
        ++ ("]").toList]) := by
  rcases generateDependsOn_shape nodeId edges nodes with ⟨h1, h2⟩ | ⟨h1, h2⟩
  · exact .inl ⟨h1, by simp [dependsOnSegment, h2]⟩
  · right
    refine ⟨h1, ?_⟩
    have hne : generateDependsOn nodeId edges nodes ≠ [] := by
      rw [h2]
      simp
    simp only [dependsOnSegment, if_neg hne]
    rw [h2, jsTrim_dependsLine]

theorem refsOf_mem_shape (nodeId : Str) (edges : List Edge) (nodes : List Node) (r : Str)
    (h : r ∈ refsOf nodeId edges nodes) :
    ∃ depNode : Node, r = terraformTypeFor depNode.type ++ (".").toList
      ++ sanitizeResourceName (jsOr depNode.data.label depNode.id) := by
  rw [refsOf] at h
  have h2 := List.reduceOption_mem_iff.1 h
  rcases List.mem_map.1 h2 with ⟨depId, -, hdep⟩
  rcases hfind : nodes.find? (fun n => n.id == depId) with _ | depNode
  · simp [refOfDep, hfind] at hdep
  · simp only [refOfDep, hfind, Option.some.injEq] at hdep
    exact ⟨depNode, hdep.symm⟩

theorem noNl_refsOf (nodeId : Str) (edges : List Edge) (nodes : List Node) :
    ∀ r ∈ refsOf nodeId edges nodes, '\n' ∉ r := by
  intro r h
  rcases refsOf_mem_shape _ _ _ r h with ⟨d, rfl⟩
  intro hmem
  rcases List.mem_append.1 hmem with h1 | h1
  · rcases List.mem_append.1 h1 with h2 | h2
    · exact noNl_terraformTypeFor _ h2
    · exact absurd h2 (by decide)
  · exact noNl_sanitizeResourceName _ h1

theorem noNl_dependsLine (nodeId : Str) (edges : List Edge) (nodes : List Node) :
    '\n' ∉ ("depends_on = [").toList
      ++ joinSep ((", ").toList) (refsOf nodeId edges nodes) ++ ("]").toList := by
  intro h
  rcases List.mem_append.1 h with h1 | h1
  · rcases List.mem_append.1 h1 with h2 | h2
    · exact absurd h2 (by decide)
    · exact noNl_joinSep _ _ (by decide) (noNl_refsOf nodeId edges nodes) h2
  · exact absurd h1 (by decide)

theorem dependsOnSegment_noNl (nodeId : Str) (edges : List Edge) (nodes : List Node) :
    ∀ l ∈ dependsOnSegment nodeId edges nodes, '\n' ∉ l := by
  intro l hl
  rcases dependsOnSegment_shape nodeId edges nodes with ⟨-, h⟩ | ⟨-, h⟩ <;> rw [h] at hl
  · cases hl
  · rcases List.mem_cons.1 hl with rfl | hl2
    · simp
    · rcases List.mem_singleton.1 hl2 with rfl
      exact noNl_dependsLine nodeId edges nodes

theorem dependsOnSegment_countP (nodeId : Str) (edges : List Edge) (nodes : List Node) :
    (dependsOnSegment nodeId edges nodes).countP isHeaderLine = 0 := by
  rcases dependsOnSegment_shape nodeId edges nodes with ⟨-, h⟩ | ⟨-, h⟩ <;> rw [h]
  · rfl
  · have hline : isHeaderLine (("depends_on = [").toList
        ++ joinSep ((", ").toList) (refsOf nodeId edges nodes) ++ ("]").toList) = false := by
      rw [List.append_assoc]
      exact isHeaderLine_lit_append _ _ (by decide) (by decide)
    simp only [List.countP_cons, List.countP_nil, isHeaderLine_nil, hline]
    simp

theorem dependsOnSegment_mem (nodeId : Str) (edges : List Edge) (nodes : List Node)
    (h : refsOf nodeId edges nodes ≠ []) :
    ("depends_on = [").toList ++ joinSep ((", ").toList) (refsOf nodeId edges nodes)
      ++ ("]").toList ∈ dependsOnSegment nodeId edges nodes := by
  rcases dependsOnSegment_shape nodeId edges nodes with ⟨h1, -⟩ | ⟨-, h2⟩
  · exact absurd h1 h
  · rw [h2]
    simp

/- ## Per-line helpers -/

theorem noNl_wrap (pre mid suf : Str) (h1 : '\n' ∉ pre) (h2 : '\n' ∉ mid)
    (h3 : '\n' ∉ suf) : '\n' ∉ pre ++ mid ++ suf := by
  intro h
  rcases List.mem_append.1 h with hx | hx
  · rcases List.mem_append.1 hx with hy | hy
    · exact h1 hy
    · exact h2 hy
  · exact h3 hx

theorem noNl_wrap2 (pre mid : Str) (h1 : '\n' ∉ pre) (h2 : '\n' ∉ mid) :
    '\n' ∉ pre ++ mid := by
  intro h
  rcases List.mem_append.1 h with hx | hx
  · exact h1 hx
  · exact h2 hx

theorem pushIf_forall (p : Str → Prop) (b : Bool) (l : Str) (h : p l) :
    ∀ x ∈ pushIf b l, p x := by
  intro x hx
  rcases mem_pushIf.1 hx with ⟨-, rfl⟩
  exact h

theorem isHeaderLine_false_pre (lit mid : Str)
    (hlen : (("resource \"").toList).length ≤ lit.length)
    (hlit : isHeaderLine lit = false) : isHeaderLine (lit ++ mid) = false :=
  isHeaderLine_lit_append lit mid hlen hlit

theorem isHeaderLine_false_pre2 (lit mid suf : Str)
    (hlen : (("resource \"").toList).length ≤ lit.length)
    (hlit : isHeaderLine lit = false) : isHeaderLine (lit ++ mid ++ suf) = false := by
  rw [List.append_assoc]
  exact isHeaderLine_lit_append lit _ hlen hlit

theorem isHeaderLine_true_pre2 (lit mid suf t : Str)
    (h : lit = ("resource \"").toList ++ t) : isHeaderLine (lit ++ mid ++ suf) = true := by
  rw [List.append_assoc]
  exact isHeaderLine_true_of_decomp lit _ t h

/- ## EC2 emitter lemmas -/

theorem ec2LinesWith_noNl (node : Node) (rn : Str) (depSeg : List Str)
    (hrn : '\n' ∉ rn) (hdep : ∀ l ∈ depSeg, '\n' ∉ l) :
    ∀ l ∈ ec2LinesWith node rn depSeg, '\n' ∉ l := by
  simp only [ec2LinesWith, List.forall_mem_append]
  refine ⟨⟨⟨⟨⟨⟨⟨?_, ?_⟩, ?_⟩, ?_⟩, ?_⟩, ?_⟩, ?_⟩, ?_⟩
  · intro l hl
    rcases List.mem_singleton.1 hl with rfl
    exact noNl_wrap _ _ _ (by decide) hrn (by decide)
  · exact pushIf_forall _ _ _ (noNl_wrap _ _ _ (by decide) (noNl_escapeHCLString _) (by decide))
  · exact pushIf_forall _ _ _ (noNl_wrap _ _ _ (by decide) (noNl_escapeHCLString _) (by decide))
  · exact pushIf_forall _ _ _ (noNl_wrap _ _ _ (by decide) (noNl_escapeHCLString _) (by decide))
  · refine pushIf_forall _ _ _ (noNl_wrap _ _ _ (by decide) ?_ (by decide))
    refine noNl_joinSep _ _ (by decide) ?_
    intro x hx
    rcases List.mem_map.1 hx with ⟨sg, -, rfl⟩
    exact noNl_wrap _ _ _ (by decide) (noNl_escapeHCLString _) (by decide)
  · exact tagsSegment_noNl _ _
  · exact hdep
  · intro l hl
    rcases List.mem_singleton.1 hl with rfl
    decide

theorem ec2LinesWith_countP (node : Node) (rn : Str) (depSeg : List Str)
    (hdep : depSeg.countP isHeaderLine = 0) :
    (ec2LinesWith node rn depSeg).countP isHeaderLine = 1 := by
  have hhdr : isHeaderLine (("resource \"aws_instance\" \"").toList ++ rn
      ++ ("\" \x7b").toList) = true :=
    isHeaderLine_true_pre2 _ _ _ (("aws_instance\" \"").toList) (by decide)
  have h1 : isHeaderLine (("  ami           = \"").toList
      ++ escapeHCLString (strVal node.data.properties.ami) ++ ("\"").toList) = false :=
    isHeaderLine_false_pre2 _ _ _ (by decide) (by decide)
  have h2 : isHeaderLine (("  instance_type = \"").toList
      ++ escapeHCLString (strVal node.data.properties.instanceType) ++ ("\"").toList) = false :=
    isHeaderLine_false_pre2 _ _ _ (by decide) (by decide)
  have h3 : isHeaderLine (("  key_name      = \"").toList
      ++ escapeHCLString (strVal node.data.properties.keyName) ++ ("\"").toList) = false :=
    isHeaderLine_false_pre2 _ _ _ (by decide) (by decide)
  have h4 : isHeaderLine (("  security_groups = [").toList
      ++ joinSep ((", ").toList) ((sgVal node.data.properties.securityGroups).map
        (fun sg => ("\"").toList ++ escapeHCLString sg ++ ("\"").toList))
      ++ ("]").toList) = false :=
    isHeaderLine_false_pre2 _ _ _ (by decide) (by decide)
  simp only [ec2LinesWith, List.countP_append, List.countP_cons, List.countP_nil,
    tagsSegment_countP, hdep, hhdr,
    countP_pushIf_zero _ _ _ h1, countP_pushIf_zero _ _ _ h2,
    countP_pushIf_zero _ _ _ h3, countP_pushIf_zero _ _ _ h4,
    (by decide : isHeaderLine (("\x7d").toList) = false)]
  simp

theorem ec2Lines_ne_nil (node : Node) (rn : Str) (edges : List Edge) (nodes : List Node) :
    ec2Lines node rn edges nodes ≠ [] := by
  simp [ec2Lines, ec2LinesWith]

theorem splitLines_ec2 (node : Node) (rn : Str) (edges : List Edge) (nodes : List Node)
    (hrn : '\n' ∉ rn) :
    splitLines (generateEC2Block node rn edges nodes) = ec2Lines node rn edges nodes := by
  rw [generateEC2Block]
  exact splitLines_joinSep _ (ec2Lines_ne_nil node rn edges nodes)
    (ec2LinesWith_noNl node rn _ hrn (dependsOnSegment_noNl _ _ _))

theorem countHeaders_ec2 (node : Node) (rn : Str) (edges : List Edge) (nodes : List Node)
    (hrn : '\n' ∉ rn) : countHeaders (generateEC2Block node rn edges nodes) = 1 := by
  rw [countHeaders, splitLines_ec2 node rn edges nodes hrn]
  exact ec2LinesWith_countP node rn _ (dependsOnSegment_countP _ _ _)

/- ## RDS emitter lemmas -/

theorem rdsLinesWith_noNl (node : Node) (rn : Str) (depSeg : List Str)
    (hrn : '\n' ∉ rn) (hdep : ∀ l ∈ depSeg, '\n' ∉ l) :
    ∀ l ∈ rdsLinesWith node rn depSeg, '\n' ∉ l := by
  simp only [rdsLinesWith, List.forall_mem_append]
  refine ⟨⟨⟨⟨⟨⟨⟨⟨?_, ?_⟩, ?_⟩, ?_⟩, ?_⟩, ?_⟩, ?_⟩, ?_⟩, ?_⟩
  · intro l hl
    rcases List.mem_singleton.1 hl with rfl
    exact noNl_wrap _ _ _ (by decide) hrn (by decide)
  · exact pushIf_forall _ _ _ (noNl_wrap2 _ _ (by decide) (noNl_natToChars _))
  · exact pushIf_forall _ _ _ (noNl_wrap _ _ _ (by decide) (noNl_escapeHCLString _) (by decide))
  · exact pushIf_forall _ _ _ (noNl_wrap _ _ _ (by decide) (noNl_escapeHCLString _) (by decide))
  · exact pushIf_forall _ _ _ (noNl_wrap _ _ _ (by decide) (noNl_escapeHCLString _) (by decide))
  · intro l hl
    simp only [List.mem_cons, List.not_mem_nil, or_false] at hl
    rcases hl with rfl | rfl | rfl <;> decide
  · exact tagsSegment_noNl _ _
  · exact hdep
  · intro l hl
    rcases List.mem_singleton.1 hl with rfl
    decide

theorem rdsLinesWith_countP (node : Node) (rn : Str) (depSeg : List Str)
    (hdep : depSeg.countP isHeaderLine = 0) :
    (rdsLinesWith node rn depSeg).countP isHeaderLine = 1 := by
  have hhdr : isHeaderLine (("resource \"aws_db_instance\" \"").toList ++ rn
      ++ ("\" \x7b").toList) = true :=
    isHeaderLine_true_pre2 _ _ _ (("aws_db_instance\" \"").toList) (by decide)
  have h1 : isHeaderLine (("  allocated_storage    = ").toList
      ++ natToChars (natVal node.data.properties.allocatedStorage)) = false :=
    isHeaderLine_false_pre _ _ (by decide) (by decide)
  have h2 : isHeaderLine (("  engine               = \"").toList
      ++ escapeHCLString (strVal node.data.properties.engine) ++ ("\"").toList) = false :=
    isHeaderLine_false_pre2 _ _ _ (by decide) (by decide)
  have h3 : isHeaderLine (("  instance_class       = \"").toList
      ++ escapeHCLString (strVal node.data.properties.instanceClass) ++ ("\"").toList) = false :=
    isHeaderLine_false_pre2 _ _ _ (by decide) (by decide)
  have h4 : isHeaderLine (("  db_name              = \"").toList
      ++ escapeHCLString (strVal node.data.properties.dbName) ++ ("\"").toList) = false :=
    isHeaderLine_false_pre2 _ _ _ (by decide) (by decide)
  simp only [rdsLinesWith, List.countP_append, List.countP_cons, List.countP_nil,
    tagsSegment_countP, hdep, hhdr,
    countP_pushIf_zero _ _ _ h1, countP_pushIf_zero _ _ _ h2,
    countP_pushIf_zero _ _ _ h3, countP_pushIf_zero _ _ _ h4,
    (by decide : isHeaderLine (("  username             = \"admin\"").toList) = false),
    (by decide : isHeaderLine (("  password             = \"changeme123\"").toList) = false),
    (by decide : isHeaderLine (("  skip_final_snapshot  = true").toList) = false),
    (by decide : isHeaderLine (("\x7d").toList) = false)]
  simp

theorem rdsLines_ne_nil (node : Node) (rn : Str) (edges : List Edge) (nodes : List Node) :
    rdsLines node rn edges nodes ≠ [] := by
  simp [rdsLines, rdsLinesWith]

theorem splitLines_rds (node : Node) (rn : Str) (edges : List Edge) (nodes : List Node)
    (hrn : '\n' ∉ rn) :
    splitLines (generateRDSBlock node rn edges nodes) = rdsLines node rn edges nodes := by
  rw [generateRDSBlock]
  exact splitLines_joinSep _ (rdsLines_ne_nil node rn edges nodes)
    (rdsLinesWith_noNl node rn _ hrn (dependsOnSegment_noNl _ _ _))

theorem countHeaders_rds (node : Node) (rn : Str) (edges : List Edge) (nodes : List Node)
    (hrn : '\n' ∉ rn) : countHeaders (generateRDSBlock node rn edges nodes) = 1 := by
  rw [countHeaders, splitLines_rds node rn edges nodes hrn]
  exact rdsLinesWith_countP node rn _ (dependsOnSegment_countP _ _ _)

/- ## Lambda emitter lemmas -/

theorem lambdaLinesWith_noNl (node : Node) (rn : Str) (depSeg : List Str)
    (hrn : '\n' ∉ rn) (hdep : ∀ l ∈ depSeg, '\n' ∉ l) :
    ∀ l ∈ lambdaLinesWith node rn depSeg, '\n' ∉ l := by
  simp only [lambdaLinesWith, List.forall_mem_append]
  refine ⟨⟨⟨⟨⟨⟨⟨⟨?_, ?_⟩, ?_⟩, ?_⟩, ?_⟩, ?_⟩, ?_⟩, ?_⟩, ?_⟩
  · intro l hl
    rcases List.mem_singleton.1 hl with rfl
    exact noNl_wrap _ _ _ (by decide) hrn (by decide)
  · exact pushIf_forall _ _ _ (noNl_wrap _ _ _ (by decide) (noNl_escapeHCLString _) (by decide))
  · exact pushIf_forall _ _ _ (noNl_wrap _ _ _ (by decide) (noNl_escapeHCLString _) (by decide))
  · exact pushIf_forall _ _ _ (noNl_wrap _ _ _ (by decide) (noNl_escapeHCLString _) (by decide))
  · intro l hl
    simp only [List.mem_cons, List.not_mem_nil, or_false] at hl
    rcases hl with rfl | rfl <;> decide
  · exact pushIf_forall _ _ _ (noNl_wrap2 _ _ (by decide) (noNl_natToChars _))
  · exact tagsSegment_noNl _ _
  · exact hdep
  · intro l hl
    rcases List.mem_singleton.1 hl with rfl
    decide

theorem lambdaLinesWith_countP (node : Node) (rn : Str) (depSeg : List Str)
    (hdep : depSeg.countP isHeaderLine = 0) :
    (lambdaLinesWith node rn depSeg).countP isHeaderLine = 1 := by
  have hhdr : isHeaderLine (("resource \"aws_lambda_function\" \"").toList ++ rn
      ++ ("\" \x7b").toList) = true :=
    isHeaderLine_true_pre2 _ _ _ (("aws_lambda_function\" \"").toList) (by decide)
  have h1 : isHeaderLine (("  function_name = \"").toList
      ++ escapeHCLString (strVal node.data.properties.functionName) ++ ("\"").toList) = false :=
    isHeaderLine_false_pre2 _ _ _ (by decide) (by decide)
  have h2 : isHeaderLine (("  runtime       = \"").toList
      ++ escapeHCLString (strVal node.data.properties.runtime) ++ ("\"").toList) = false :=
    isHeaderLine_false_pre2 _ _ _ (by decide) (by decide)
  have h3 : isHeaderLine (("  handler       = \"").toList
      ++ escapeHCLString (strVal node.data.properties.handler) ++ ("\"").toList) = false :=
    isHeaderLine_false_pre2 _ _ _ (by decide) (by decide)
  have h4 : isHeaderLine (("  memory_size   = ").toList
      ++ natToChars (natVal node.data.properties.memory)) = false :=
    isHeaderLine_false_pre _ _ (by decide) (by decide)
  simp only [lambdaLinesWith, List.countP_append, List.countP_cons, List.countP_nil,
    tagsSegment_countP, hdep, hhdr,
    countP_pushIf_zero _ _ _ h1, countP_pushIf_zero _ _ _ h2,
    countP_pushIf_zero _ _ _ h3, countP_pushIf_zero _ _ _ h4,
    (by decide : isHeaderLine (("  role          = aws_iam_role.lambda_role.arn").toList) = false),
    (by decide : isHeaderLine (("  filename      = \"lambda_function.zip\"").toList) = false),
    (by decide : isHeaderLine (("\x7d").toList) = false)]
  simp

theorem lambdaLines_ne_nil (node : Node) (rn : Str) (edges : List Edge) (nodes : List Node) :
    lambdaLines node rn edges nodes ≠ [] := by
  simp [lambdaLines, lambdaLinesWith]

theorem splitLines_lambda (node : Node) (rn : Str) (edges : List Edge) (nodes : List Node)
    (hrn : '\n' ∉ rn) :
    splitLines (generateLambdaBlock node rn edges nodes) = lambdaLines node rn edges nodes := by
  rw [generateLambdaBlock]
  exact splitLines_joinSep _ (lambdaLines_ne_nil node rn edges nodes)
    (lambdaLinesWith_noNl node rn _ hrn (dependsOnSegment_noNl _ _ _))

theorem countHeaders_lambda (node : Node) (rn : Str) (edges : List Edge) (nodes : List Node)
    (hrn : '\n' ∉ rn) : countHeaders (generateLambdaBlock node rn edges nodes) = 1 := by
  rw [countHeaders, splitLines_lambda node rn edges nodes hrn]
  exact lambdaLinesWith_countP node rn _ (dependsOnSegment_countP _ _ _)

/- ## VPC emitter lemmas -/

theorem vpcLinesWith_noNl (node : Node) (rn : Str) (depSeg : List Str)
    (hrn : '\n' ∉ rn) (hdep : ∀ l ∈ depSeg, '\n' ∉ l) :
    ∀ l ∈ vpcLinesWith node rn depSeg, '\n' ∉ l := by
  simp only [vpcLinesWith, List.forall_mem_append]
  refine ⟨⟨⟨⟨⟨⟨?_, ?_⟩, ?_⟩, ?_⟩, ?_⟩, ?_⟩, ?_⟩
  · intro l hl
    rcases List.mem_singleton.1 hl with rfl
    exact noNl_wrap _ _ _ (by decide) hrn (by decide)
  · exact pushIf_forall _ _ _ (noNl_wrap _ _ _ (by decide) (noNl_escapeHCLString _) (by decide))
  · exact pushIf_forall _ _ _ (noNl_wrap2 _ _ (by decide) (noNl_boolToChars _))
  · exact pushIf_forall _ _ _ (noNl_wrap2 _ _ (by decide) (noNl_boolToChars _))
  · exact tagsSegment_noNl _ _
  · exact hdep
  · intro l hl
    rcases List.mem_singleton.1 hl with rfl
    decide

theorem vpcLinesWith_countP (node : Node) (rn : Str) (depSeg : List Str)
    (hdep : depSeg.countP isHeaderLine = 0) :
    (vpcLinesWith node rn depSeg).countP isHeaderLine = 1 := by
  have hhdr : isHeaderLine (("resource \"aws_vpc\" \"").toList ++ rn
      ++ ("\" \x7b").toList) = true :=
    isHeaderLine_true_pre2 _ _ _ (("aws_vpc\" \"").toList) (by decide)
  have h1 : isHeaderLine (("  cidr_block           = \"").toList
      ++ escapeHCLString (strVal node.data.properties.cidrBlock) ++ ("\"").toList) = false :=
    isHeaderLine_false_pre2 _ _ _ (by decide) (by decide)
  have h2 : isHeaderLine (("  enable_dns_hostnames = ").toList
      ++ boolToChars (node.data.properties.enableDnsHostnames.getD false)) = false :=
    isHeaderLine_false_pre _ _ (by decide) (by decide)
  have h3 : isHeaderLine (("  enable_dns_support   = ").toList
      ++ boolToChars (node.data.properties.enableDnsSupport.getD false)) = false :=
    isHeaderLine_false_pre _ _ (by decide) (by decide)
  simp only [vpcLinesWith, List.countP_append, List.countP_cons, List.countP_nil,
    tagsSegment_countP, hdep, hhdr,
    countP_pushIf_zero _ _ _ h1, countP_pushIf_zero _ _ _ h2, countP_pushIf_zero _ _ _ h3,
    (by decide : isHeaderLine (("\x7d").toList) = false)]
  simp

theorem vpcLines_ne_nil (node : Node) (rn : Str) (edges : List Edge) (nodes : List Node) :
    vpcLines node rn edges nodes ≠ [] := by
  simp [vpcLines, vpcLinesWith]

theorem splitLines_vpc (node : Node) (rn : Str) (edges : List Edge) (nodes : List Node)
    (hrn : '\n' ∉ rn) :
    splitLines (generateVPCBlock node rn edges nodes) = vpcLines node rn edges nodes := by
  rw [generateVPCBlock]
  exact splitLines_joinSep _ (vpcLines_ne_nil node rn edges nodes)
    (vpcLinesWith_noNl node rn _ hrn (dependsOnSegment_noNl _ _ _))

theorem countHeaders_vpc (node : Node) (rn : Str) (edges : List Edge) (nodes : List Node)
    (hrn : '\n' ∉ rn) : countHeaders (generateVPCBlock node rn edges nodes) = 1 := by
  rw [countHeaders, splitLines_vpc node rn edges nodes hrn]
  exact vpcLinesWith_countP node rn _ (dependsOnSegment_countP _ _ _)

/- ## ALB emitter lemmas -/

theorem albLinesWith_noNl (node : Node) (rn : Str) (depSeg : List Str)
    (hrn : '\n' ∉ rn) (hdep : ∀ l ∈ depSeg, '\n' ∉ l) :
    ∀ l ∈ albLinesWith node rn depSeg, '\n' ∉ l := by
  simp only [albLinesWith, List.forall_mem_append]
  refine ⟨⟨⟨⟨⟨⟨⟨⟨?_, ?_⟩, ?_⟩, ?_⟩, ?_⟩, ?_⟩, ?_⟩, ?_⟩, ?_⟩
  · intro l hl
    rcases List.mem_singleton.1 hl with rfl
    exact noNl_wrap _ _ _ (by decide) hrn (by decide)
  · exact pushIf_forall _ _ _ (noNl_wrap _ _ _ (by decide) (noNl_escapeHCLString _) (by decide))
  · intro l hl
    rcases List.mem_singleton.1 hl with rfl
    decide
  · exact pushIf_forall _ _ _ (noNl_wrap2 _ _ (by decide) (noNl_boolToChars _))
  · exact pushIf_forall _ _ _ (noNl_wrap _ _ _ (by decide) (noNl_escapeHCLString _) (by decide))
  · intro l hl
    rcases List.mem_singleton.1 hl with rfl
    decide
  · exact tagsSegment_noNl _ _
  · exact hdep
  · intro l hl
    rcases List.mem_singleton.1 hl with rfl
    decide

theorem albLinesWith_countP (node : Node) (rn : Str) (depSeg : List Str)
    (hdep : depSeg.countP isHeaderLine = 0) :
    (albLinesWith node rn depSeg).countP isHeaderLine = 1 := by
  have hhdr : isHeaderLine (("resource \"aws_lb\" \"").toList ++ rn
      ++ ("\" \x7b").toList) = true :=
    isHeaderLine_true_pre2 _ _ _ (("aws_lb\" \"").toList) (by decide)
  have h1 : isHeaderLine (("  name               = \"").toList
      ++ escapeHCLString (strVal node.data.properties.name) ++ ("\"").toList) = false :=
    isHeaderLine_false_pre2 _ _ _ (by decide) (by decide)
  have h2 : isHeaderLine (("  internal           = ").toList
      ++ boolToChars (decide (strVal node.data.properties.scheme = ("internal").toList))) = false :=
    isHeaderLine_false_pre _ _ (by decide) (by decide)
  have h3 : isHeaderLine (("  ip_address_type    = \"").toList
      ++ escapeHCLString (strVal node.data.properties.ipAddressType) ++ ("\"").toList) = false :=
    isHeaderLine_false_pre2 _ _ _ (by decide) (by decide)
  simp only [albLinesWith, List.countP_append, List.countP_cons, List.countP_nil,
    tagsSegment_countP, hdep, hhdr,
    countP_pushIf_zero _ _ _ h1, countP_pushIf_zero _ _ _ h2, countP_pushIf_zero _ _ _ h3,
    (by decide : isHeaderLine (("  load_balancer_type = \"application\"").toList) = false),
    (by decide : isHeaderLine (("  subnets            = []  # Add subnet IDs").toList) = false),
    (by decide : isHeaderLine (("\x7d").toList) = false)]
  simp

theorem albLines_ne_nil (node : Node) (rn : Str) (edges : List Edge) (nodes : List Node) :
    albLines node rn edges nodes ≠ [] := by
  simp [albLines, albLinesWith]

theorem splitLines_alb (node : Node) (rn : Str) (edges : List Edge) (nodes : List Node)
    (hrn : '\n' ∉ rn) :
    splitLines (generateALBBlock node rn edges nodes) = albLines node rn edges nodes := by
  rw [generateALBBlock]
  exact splitLines_joinSep _ (albLines_ne_nil node rn edges nodes)
    (albLinesWith_noNl node rn _ hrn (dependsOnSegment_noNl _ _ _))

theorem countHeaders_alb (node : Node) (rn : Str) (edges : List Edge) (nodes : List Node)
    (hrn : '\n' ∉ rn) : countHeaders (generateALBBlock node rn edges nodes) = 1 := by
  rw [countHeaders, splitLines_alb node rn edges nodes hrn]
  exact albLinesWith_countP node rn _ (dependsOnSegment_countP _ _ _)

/- ## API Gateway emitter lemmas -/

theorem apiGatewayLinesWith_noNl (node : Node) (rn : Str) (depSeg : List Str)
    (hrn : '\n' ∉ rn) (hdep : ∀ l ∈ depSeg, '\n' ∉ l) :
    ∀ l ∈ apiGatewayLinesWith node rn depSeg, '\n' ∉ l := by
  simp only [apiGatewayLinesWith, List.forall_mem_append]
  refine ⟨⟨⟨⟨⟨⟨?_, ?_⟩, ?_⟩, ?_⟩, ?_⟩, ?_⟩, ?_⟩
  · intro l hl
    rcases List.mem_singleton.1 hl with rfl
    exact noNl_wrap _ _ _ (by decide) hrn (by decide)
  · exact pushIf_forall _ _ _ (noNl_wrap _ _ _ (by decide) (noNl_escapeHCLString _) (by decide))
  · exact pushIf_forall _ _ _ (noNl_wrap _ _ _ (by decide) (noNl_escapeHCLString _) (by decide))
  · intro l hl
    split at hl
    · have hall : ∀ x ∈ [([] : Str), ("  cors_configuration \x7b").toList,
          ("    allow_origins = [\"*\"]").toList,
          ("    allow_methods = [\"*\"]").toList,
          ("    allow_headers = [\"*\"]").toList,
          ("  \x7d").toList], '\n' ∉ x := by decide
      exact hall l hl
    · cases hl
  · exact tagsSegment_noNl _ _
  · exact hdep
  · intro l hl
    rcases List.mem_singleton.1 hl with rfl
    decide

theorem apiGatewayLinesWith_countP (node : Node) (rn : Str) (depSeg : List Str)
    (hdep : depSeg.countP isHeaderLine = 0) :
    (apiGatewayLinesWith node rn depSeg).countP isHeaderLine = 1 := by
  have hhdr : isHeaderLine (("resource \"aws_apigatewayv2_api\" \"").toList ++ rn
      ++ ("\" \x7b").toList) = true :=
    isHeaderLine_true_pre2 _ _ _ (("aws_apigatewayv2_api\" \"").toList) (by decide)
  have h1 : isHeaderLine (("  name          = \"").toList
      ++ escapeHCLString (strVal node.data.properties.name) ++ ("\"").toList) = false :=
    isHeaderLine_false_pre2 _ _ _ (by decide) (by decide)
  have h2 : isHeaderLine (("  protocol_type = \"").toList
      ++ escapeHCLString (strVal node.data.properties.protocolType) ++ ("\"").toList) = false :=
    isHeaderLine_false_pre2 _ _ _ (by decide) (by decide)
  have hcors : (if truthyBool node.data.properties.corsEnabled then
      [([] : Str), ("  cors_configuration \x7b").toList,
       ("    allow_origins = [\"*\"]").toList,
       ("    allow_methods = [\"*\"]").toList,
       ("    allow_headers = [\"*\"]").toList,
       ("  \x7d").toList] else []).countP isHeaderLine = 0 := by
    split
    · decide
    · rfl
  simp only [apiGatewayLinesWith, List.countP_append, List.countP_cons, List.countP_nil,
    tagsSegment_countP, hdep, hhdr, hcors,
    countP_pushIf_zero _ _ _ h1, countP_pushIf_zero _ _ _ h2,
    (by decide : isHeaderLine (("\x7d").toList) = false)]
  simp

theorem apiGatewayLines_ne_nil (node : Node) (rn : Str) (edges : List Edge)
    (nodes : List Node) : apiGatewayLines node rn edges nodes ≠ [] := by
  simp [apiGatewayLines, apiGatewayLinesWith]

theorem splitLines_apiGateway (node : Node) (rn : Str) (edges : List Edge) (nodes : List Node)
    (hrn : '\n' ∉ rn) :
    splitLines (generateAPIGatewayBlock node rn edges nodes)
      = apiGatewayLines node rn edges nodes := by
  rw [generateAPIGatewayBlock]
  exact splitLines_joinSep _ (apiGatewayLines_ne_nil node rn edges nodes)
    (apiGatewayLinesWith_noNl node rn _ hrn (dependsOnSegment_noNl _ _ _))

theorem countHeaders_apiGateway (node : Node) (rn : Str) (edges : List Edge)
    (nodes : List Node) (hrn : '\n' ∉ rn) :
    countHeaders (generateAPIGatewayBlock node rn edges nodes) = 1 := by
  rw [countHeaders, splitLines_apiGateway node rn edges nodes hrn]
  exact apiGatewayLinesWith_countP node rn _ (dependsOnSegment_countP _ _ _)

/- ## DynamoDB emitter lemmas -/

theorem dynamoDBLinesWith_noNl (node : Node) (rn : Str) (depSeg : List Str)
    (hrn : '\n' ∉ rn) (hdep : ∀ l ∈ depSeg, '\n' ∉ l) :
    ∀ l ∈ dynamoDBLinesWith node rn depSeg, '\n' ∉ l := by
  simp only [dynamoDBLinesWith, List.forall_mem_append]
  refine ⟨⟨⟨⟨⟨⟨⟨?_, ?_⟩, ?_⟩, ?_⟩, ?_⟩, ?_⟩, ?_⟩, ?_⟩
  · intro l hl
    rcases List.mem_singleton.1 hl with rfl
    exact noNl_wrap _ _ _ (by decide) hrn (by decide)
  · exact pushIf_forall _ _ _ (noNl_wrap _ _ _ (by decide) (noNl_escapeHCLString _) (by decide))
  · exact pushIf_forall _ _ _ (noNl_wrap _ _ _ (by decide) (noNl_escapeHCLString _) (by decide))
  · exact pushIf_forall _ _ _ (noNl_wrap _ _ _ (by decide) (noNl_escapeHCLString _) (by decide))
  · intro l hl
    simp only [List.mem_cons, List.not_mem_nil, or_false] at hl
    rcases hl with rfl | rfl | rfl | rfl | rfl
    · simp
    · decide
    · exact noNl_wrap _ _ _ (by decide) (noNl_escapeHCLString _) (by decide)
    · decide
    · decide
  · exact tagsSegment_noNl _ _
  · exact hdep
  · intro l hl
    rcases List.mem_singleton.1 hl with rfl
    decide

theorem dynamoDBLinesWith_countP (node : Node) (rn : Str) (depSeg : List Str)
    (hdep : depSeg.countP isHeaderLine = 0) :
    (dynamoDBLinesWith node rn depSeg).countP isHeaderLine = 1 := by
  have hhdr : isHeaderLine (("resource \"aws_dynamodb_table\" \"").toList ++ rn
      ++ ("\" \x7b").toList) = true :=
    isHeaderLine_true_pre2 _ _ _ (("aws_dynamodb_table\" \"").toList) (by decide)
  have h1 : isHeaderLine (("  name         = \"").toList
      ++ escapeHCLString (strVal node.data.properties.tableName) ++ ("\"").toList) = false :=
    isHeaderLine_false_pre2 _ _ _ (by decide) (by decide)
  have h2 : isHeaderLine (("  billing_mode = \"").toList
      ++ escapeHCLString (strVal node.data.properties.billingMode) ++ ("\"").toList) = false :=
    isHeaderLine_false_pre2 _ _ _ (by decide) (by decide)
  have h3 : isHeaderLine (("  hash_key     = \"").toList
      ++ escapeHCLString (strVal node.data.properties.hashKey) ++ ("\"").toList) = false :=
    isHeaderLine_false_pre2 _ _ _ (by decide) (by decide)
  have h4 : isHeaderLine (("    name = \"").toList
      ++ escapeHCLString (jsOr (strVal node.data.properties.hashKey) (("id").toList))
      ++ ("\"").toList) = false :=
    isHeaderLine_false_pre2 _ _ _ (by decide) (by decide)
  simp only [dynamoDBLinesWith, List.countP_append, List.countP_cons, List.countP_nil,
    tagsSegment_countP, hdep, hhdr, h4,
    countP_pushIf_zero _ _ _ h1, countP_pushIf_zero _ _ _ h2, countP_pushIf_zero _ _ _ h3,
    isHeaderLine_nil,
    (by decide : isHeaderLine (("  attribute \x7b").toList) = false),
    (by decide : isHeaderLine (("    type = \"S\"").toList) = false),
    (by decide : isHeaderLine (("  \x7d").toList) = false),
    (by decide : isHeaderLine (("\x7d").toList) = false)]
  simp

theorem dynamoDBLines_ne_nil (node : Node) (rn : Str) (edges : List Edge)
    (nodes : List Node) : dynamoDBLines node rn edges nodes ≠ [] := by
  simp [dynamoDBLines, dynamoDBLinesWith]

theorem splitLines_dynamoDB (node : Node) (rn : Str) (edges : List Edge) (nodes : List Node)
    (hrn : '\n' ∉ rn) :
    splitLines (generateDynamoDBBlock node rn edges nodes)
      = dynamoDBLines node rn edges nodes := by
  rw [generateDynamoDBBlock]
  exact splitLines_joinSep _ (dynamoDBLines_ne_nil node rn edges nodes)
    (dynamoDBLinesWith_noNl node rn _ hrn (dependsOnSegment_noNl _ _ _))

theorem countHeaders_dynamoDB (node : Node) (rn : Str) (edges : List Edge)
    (nodes : List Node) (hrn : '\n' ∉ rn) :
    countHeaders (generateDynamoDBBlock node rn edges nodes) = 1 := by
  rw [countHeaders, splitLines_dynamoDB node rn edges nodes hrn]
  exact dynamoDBLinesWith_countP node rn _ (dependsOnSegment_countP _ _ _)

/- ## WAF emitter lemmas -/

theorem wafLinesWith_noNl (node : Node) (rn : Str) (depSeg : List Str)
    (hrn : '\n' ∉ rn) (hdep : ∀ l ∈ depSeg, '\n' ∉ l) :
    ∀ l ∈ wafLinesWith node rn depSeg, '\n' ∉ l := by
  simp only [wafLinesWith, List.forall_mem_append]
  refine ⟨⟨⟨⟨⟨⟨⟨?_, ?_⟩, ?_⟩, ?_⟩, ?_⟩, ?_⟩, ?_⟩, ?_⟩
  · intro l hl
    rcases List.mem_singleton.1 hl with rfl
    exact noNl_wrap _ _ _ (by decide) hrn (by decide)
  · exact pushIf_forall _ _ _ (noNl_wrap _ _ _ (by decide) (noNl_escapeHCLString _) (by decide))
  · exact pushIf_forall _ _ _ (noNl_wrap _ _ _ (by decide) (noNl_escapeHCLString _) (by decide))
  · intro l hl
    simp only [List.mem_cons, List.not_mem_nil, or_false] at hl
    rcases hl with rfl | rfl | rfl | rfl
    · simp
    · decide
    · split <;> decide
    · decide
  · intro l hl
    simp only [List.mem_cons, List.not_mem_nil, or_false] at hl
    rcases hl with rfl | rfl | rfl | rfl | rfl | rfl
    · simp
    all_goals decide
  · exact tagsSegment_noNl _ _
  · exact hdep
  · intro l hl
    rcases List.mem_singleton.1 hl with rfl
    decide

theorem wafLinesWith_countP (node : Node) (rn : Str) (depSeg : List Str)
    (hdep : depSeg.countP isHeaderLine = 0) :
    (wafLinesWith node rn depSeg).countP isHeaderLine = 1 := by
  have hhdr : isHeaderLine (("resource \"aws_wafv2_web_acl\" \"").toList ++ rn
      ++ ("\" \x7b").toList) = true :=
    isHeaderLine_true_pre2 _ _ _ (("aws_wafv2_web_acl\" \"").toList) (by decide)
  have h1 : isHeaderLine (("  name  = \"").toList
      ++ escapeHCLString (strVal node.data.properties.name) ++ ("\"").toList) = false :=
    isHeaderLine_false_pre2 _ _ _ (by decide) (by decide)
  have h2 : isHeaderLine (("  scope = \"").toList
      ++ escapeHCLString (strVal node.data.properties.scope) ++ ("\"").toList) = false :=
    isHeaderLine_false_pre2 _ _ _ (by decide) (by decide)
  have hact : isHeaderLine (if node.data.properties.defaultAction = some (("BLOCK").toList)
      then ("    block \x7b\x7d").toList else ("    allow \x7b\x7d").toList) = false := by
    split <;> decide
  simp only [wafLinesWith, List.countP_append, List.countP_cons, List.countP_nil,
    tagsSegment_countP, hdep, hhdr, hact, isHeaderLine_nil,
    countP_pushIf_zero _ _ _ h1, countP_pushIf_zero _ _ _ h2,
    (by decide : isHeaderLine (("  default_action \x7b").toList) = false),
    (by decide : isHeaderLine (("  visibility_config \x7b").toList) = false),
    (by decide : isHeaderLine (("    cloudwatch_metrics_enabled = true").toList) = false),
    (by decide : isHeaderLine (("    metric_name                = \"waf-metric\"").toList) = false),
    (by decide : isHeaderLine (("    sampled_requests_enabled   = true").toList) = false),
    (by decide : isHeaderLine (("  \x7d").toList) = false),
    (by decide : isHeaderLine (("\x7d").toList) = false)]
  simp

theorem wafLines_ne_nil (node : Node) (rn : Str) (edges : List Edge) (nodes : List Node) :
    wafLines node rn edges nodes ≠ [] := by
  simp [wafLines, wafLinesWith]

theorem splitLines_waf (node : Node) (rn : Str) (edges : List Edge) (nodes : List Node)
    (hrn : '\n' ∉ rn) :
    splitLines (generateWAFBlock node rn edges nodes) = wafLines node rn edges nodes := by
  rw [generateWAFBlock]
  exact splitLines_joinSep _ (wafLines_ne_nil node rn edges nodes)
    (wafLinesWith_noNl node rn _ hrn (dependsOnSegment_noNl _ _ _))

theorem countHeaders_waf (node : Node) (rn : Str) (edges : List Edge) (nodes : List Node)
    (hrn : '\n' ∉ rn) : countHeaders (generateWAFBlock node rn edges nodes) = 1 := by
  rw [countHeaders, splitLines_waf node rn edges nodes hrn]
  exact wafLinesWith_countP node rn _ (dependsOnSegment_countP _ _ _)

/- ## S3 emitter lemmas -/

theorem s3PrimaryLinesWith_noNl (node : Node) (rn : Str) (depSeg : List Str)
    (hrn : '\n' ∉ rn) (hdep : ∀ l ∈ depSeg, '\n' ∉ l) :
    ∀ l ∈ s3PrimaryLinesWith node rn depSeg, '\n' ∉ l := by
  simp only [s3PrimaryLinesWith, List.forall_mem_append]
  refine ⟨⟨⟨⟨?_, ?_⟩, ?_⟩, ?_⟩, ?_⟩
  · intro l hl
    rcases List.mem_singleton.1 hl with rfl
    exact noNl_wrap _ _ _ (by decide) hrn (by decide)
  · exact pushIf_forall _ _ _ (noNl_wrap _ _ _ (by decide) (noNl_escapeHCLString _) (by decide))
  · exact tagsSegment_noNl _ _
  · exact hdep
  · intro l hl
    rcases List.mem_singleton.1 hl with rfl
    decide

theorem s3PrimaryLinesWith_countP (node : Node) (rn : Str) (depSeg : List Str)
    (hdep : depSeg.countP isHeaderLine = 0) :
    (s3PrimaryLinesWith node rn depSeg).countP isHeaderLine = 1 := by
  have hhdr : isHeaderLine (("resource \"aws_s3_bucket\" \"").toList ++ rn
      ++ ("\" \x7b").toList) = true :=
    isHeaderLine_true_pre2 _ _ _ (("aws_s3_bucket\" \"").toList) (by decide)
  have h1 : isHeaderLine (("  bucket = \"").toList
      ++ escapeHCLString (strVal node.data.properties.bucketName) ++ ("\"").toList) = false :=
    isHeaderLine_false_pre2 _ _ _ (by decide) (by decide)
  simp only [s3PrimaryLinesWith, List.countP_append, List.countP_cons, List.countP_nil,
    tagsSegment_countP, hdep, hhdr, countP_pushIf_zero _ _ _ h1,
    (by decide : isHeaderLine (("\x7d").toList) = false)]
  simp

theorem s3VersioningTail_noNl (rn : Str) (hrn : '\n' ∉ rn) :
    ∀ l ∈ s3VersioningTail rn, '\n' ∉ l := by
  intro l hl
  simp only [s3VersioningTail, List.mem_cons, List.not_mem_nil, or_false] at hl
  rcases hl with rfl | rfl | rfl | rfl | rfl | rfl | rfl
  · exact noNl_wrap _ _ _ (by decide) hrn (by decide)
  · exact noNl_wrap _ _ _ (by decide) hrn (by decide)
  · simp
  all_goals decide

theorem s3EncryptionTail_noNl (rn : Str) (hrn : '\n' ∉ rn) :
    ∀ l ∈ s3EncryptionTail rn, '\n' ∉ l := by
  intro l hl
  simp only [s3EncryptionTail, List.mem_cons, List.not_mem_nil, or_false] at hl
  rcases hl with rfl | rfl | rfl | rfl | rfl | rfl | rfl | rfl | rfl
  · exact noNl_wrap _ _ _ (by decide) hrn (by decide)
  · exact noNl_wrap _ _ _ (by decide) hrn (by decide)
  · simp
  all_goals decide

theorem s3VersioningTail_countP (rn : Str) :
    (s3VersioningTail rn).countP isHeaderLine = 1 := by
  have hhdr : isHeaderLine (("resource \"aws_s3_bucket_versioning\" \"").toList ++ rn
      ++ ("_versioning\" \x7b").toList) = true :=
    isHeaderLine_true_pre2 _ _ _ (("aws_s3_bucket_versioning\" \"").toList) (by decide)
  have hb : isHeaderLine (("  bucket = aws_s3_bucket.").toList ++ rn
      ++ (".id").toList) = false :=
    isHeaderLine_false_pre2 _ _ _ (by decide) (by decide)
  simp only [s3VersioningTail, List.countP_cons, List.countP_nil, isHeaderLine_nil, hhdr, hb,
    (by decide : isHeaderLine (("  versioning_configuration \x7b").toList) = false),
    (by decide : isHeaderLine (("    status = \"Enabled\"").toList) = false),
    (by decide : isHeaderLine (("  \x7d").toList) = false),
    (by decide : isHeaderLine (("\x7d").toList) = false)]
  simp

theorem s3EncryptionTail_countP (rn : Str) :
    (s3EncryptionTail rn).countP isHeaderLine = 1 := by
  have hhdr : isHeaderLine
      (("resource \"aws_s3_bucket_server_side_encryption_configuration\" \"").toList ++ rn
      ++ ("_encryption\" \x7b").toList) = true :=
    isHeaderLine_true_pre2 _ _ _
      (("aws_s3_bucket_server_side_encryption_configuration\" \"").toList) (by decide)
  have hb : isHeaderLine (("  bucket = aws_s3_bucket.").toList ++ rn
      ++ (".id").toList) = false :=
    isHeaderLine_false_pre2 _ _ _ (by decide) (by decide)
  simp only [s3EncryptionTail, List.countP_cons, List.countP_nil, isHeaderLine_nil, hhdr, hb,
    (by decide : isHeaderLine (("  rule \x7b").toList) = false),
    (by decide : isHeaderLine (("    apply_server_side_encryption_by_default \x7b").toList) = false),
    (by decide : isHeaderLine (("      sse_algorithm = \"AES256\"").toList) = false),
    (by decide : isHeaderLine (("    \x7d").toList) = false),
    (by decide : isHeaderLine (("  \x7d").toList) = false),
    (by decide : isHeaderLine (("\x7d").toList) = false)]
  simp

theorem s3VersioningSegment_noNl (b : Bool) (rn : Str) (hrn : '\n' ∉ rn) :
    ∀ l ∈ s3VersioningSegment b rn, '\n' ∉ l := by
  intro l hl
  cases b with
  | false => cases hl
  | true =>
    rcases List.mem_cons.1 hl with rfl | h2
    · simp
    · exact s3VersioningTail_noNl rn hrn l h2

theorem s3EncryptionSegment_noNl (b : Bool) (rn : Str) (hrn : '\n' ∉ rn) :
    ∀ l ∈ s3EncryptionSegment b rn, '\n' ∉ l := by
  intro l hl
  cases b with
  | false => cases hl
  | true =>
    rcases List.mem_cons.1 hl with rfl | h2
    · simp
    · exact s3EncryptionTail_noNl rn hrn l h2

theorem s3VersioningSegment_countP (b : Bool) (rn : Str) :
    (s3VersioningSegment b rn).countP isHeaderLine = if b then 1 else 0 := by
  cases b
  · rfl
  · show ([] :: s3VersioningTail rn).countP isHeaderLine = 1
    rw [List.countP_cons]
    simp [isHeaderLine_nil, s3VersioningTail_countP rn]

theorem s3EncryptionSegment_countP (b : Bool) (rn : Str) :
    (s3EncryptionSegment b rn).countP isHeaderLine = if b then 1 else 0 := by
  cases b
  · rfl
  · show ([] :: s3EncryptionTail rn).countP isHeaderLine = 1
    rw [List.countP_cons]
    simp [isHeaderLine_nil, s3EncryptionTail_countP rn]

theorem s3PrimaryLines_ne_nil (node : Node) (rn : Str) (edges : List Edge)
    (nodes : List Node) : s3PrimaryLines node rn edges nodes ≠ [] := by
  simp [s3PrimaryLines, s3PrimaryLinesWith]

theorem s3CombinedLines_ne_nil (node : Node) (rn : Str) (edges : List Edge)
    (nodes : List Node) : s3CombinedLines node rn edges nodes ≠ [] := by
  simp only [s3CombinedLines]
  intro h
  rcases List.append_eq_nil.1 h with ⟨h1, -⟩
  rcases List.append_eq_nil.1 h1 with ⟨h2, -⟩
  exact s3PrimaryLines_ne_nil node rn edges nodes h2

theorem s3CombinedLines_noNl (node : Node) (rn : Str) (edges : List Edge)
    (nodes : List Node) (hrn : '\n' ∉ rn) :
    ∀ l ∈ s3CombinedLines node rn edges nodes, '\n' ∉ l := by
  simp only [s3CombinedLines, List.forall_mem_append]
  exact ⟨⟨s3PrimaryLinesWith_noNl node rn _ hrn (dependsOnSegment_noNl _ _ _),
    s3VersioningSegment_noNl _ rn hrn⟩, s3EncryptionSegment_noNl _ rn hrn⟩

theorem joinSep_append_seg (P D : List Str) (hP : P ≠ []) (hD : D ≠ []) :
    joinSep nl (P ++ ([] :: D)) = joinSep nl P ++ ('\n' :: '\n' :: joinSep nl D) := by
  cases D with
  | nil => exact absurd rfl hD
  | cons d1 D2 =>
    rw [joinSep_append nl P ([] :: d1 :: D2) hP (by simp), joinSep_cons_cons]
    simp [nl_eq]

theorem joinSep_blanks (D : List Str) (hD : D ≠ []) :
    joinSep nl ([] :: [] :: D) = '\n' :: '\n' :: joinSep nl D := by
  cases D with
  | nil => exact absurd rfl hD
  | cons d1 D2 =>
    rw [joinSep_cons_cons, joinSep_cons_cons]
    simp [nl_eq]

theorem generateS3Block_eq_joinSep (node : Node) (rn : Str) (edges : List Edge)
    (nodes : List Node) :
    generateS3Block node rn edges nodes = joinSep nl (s3CombinedLines node rn edges nodes) := by
  have hTV : s3VersioningTail rn ≠ [] := by simp [s3VersioningTail]
  have hTE : s3EncryptionTail rn ≠ [] := by simp [s3EncryptionTail]
  have hP : s3PrimaryLinesWith node rn (dependsOnSegment node.id edges nodes) ≠ [] := by
    simp [s3PrimaryLinesWith]
  have hPV : s3PrimaryLinesWith node rn (dependsOnSegment node.id edges nodes)
      ++ ([] :: s3VersioningTail rn) ≠ [] := by
    simp [s3PrimaryLinesWith]
  simp only [generateS3Block, s3CombinedLines, s3VersioningSegment, s3EncryptionSegment,
    s3VersioningLines, s3EncryptionLines, s3PrimaryLines]
  cases hv : truthyBool node.data.properties.versioning <;>
    cases he : truthyBool node.data.properties.encryption <;>
    simp only [if_pos, if_neg, Bool.false_eq_true, if_false, if_true, List.append_nil]
  · rw [joinSep_append_seg _ _ hP hTE, joinSep_blanks _ hTE]
  · rw [joinSep_append_seg _ _ hP hTV, joinSep_blanks _ hTV]
  · rw [joinSep_append_seg _ _ hPV hTE,
      joinSep_append_seg _ _ hP hTV,
      joinSep_blanks _ hTV, joinSep_blanks _ hTE]

theorem splitLines_s3 (node : Node) (rn : Str) (edges : List Edge) (nodes : List Node)
    (hrn : '\n' ∉ rn) :
    splitLines (generateS3Block node rn edges nodes) = s3CombinedLines node rn edges nodes := by
  rw [generateS3Block_eq_joinSep]
  exact splitLines_joinSep _ (s3CombinedLines_ne_nil node rn edges nodes)
    (s3CombinedLines_noNl node rn edges nodes hrn)

theorem countHeaders_s3 (node : Node) (rn : Str) (edges : List Edge) (nodes : List Node)
    (hrn : '\n' ∉ rn) :
    countHeaders (generateS3Block node rn edges nodes)
      = 1 + (if truthyBool node.data.properties.versioning then 1 else 0)
          + (if truthyBool node.data.properties.encryption then 1 else 0) := by
  rw [countHeaders, splitLines_s3 node rn edges nodes hrn]
  have hPrim : (s3PrimaryLines node rn edges nodes).countP isHeaderLine = 1 :=
    s3PrimaryLinesWith_countP node rn _ (dependsOnSegment_countP _ _ _)
  simp only [s3CombinedLines, List.countP_append, s3VersioningSegment_countP,
    s3EncryptionSegment_countP, hPrim]

/- ## Dispatch lemmas for generateResourceBlock -/

theorem generateResourceBlock_ec2 (node : Node) (edges : List Edge) (nodes : List Node)
    (hlab : node.data.label ≠ []) (hty : node.type = ("ec2").toList) :
    generateResourceBlock node edges nodes
      = .ok (generateEC2Block node (sanitizeResourceName (jsOr node.data.label node.id)) edges nodes) := by
  simp only [generateResourceBlock]
  rw [if_neg hlab, hty]
  rw [if_pos (show ("ec2").toList = ("ec2").toList from rfl)]

theorem generateResourceBlock_lambda (node : Node) (edges : List Edge) (nodes : List Node)
    (hlab : node.data.label ≠ []) (hty : node.type = ("lambda").toList) :
    generateResourceBlock node edges nodes
      = .ok (generateLambdaBlock node (sanitizeResourceName (jsOr node.data.label node.id)) edges nodes) := by
  simp only [generateResourceBlock]
  rw [if_neg hlab, hty]
  rw [if_neg (show ¬(("lambda").toList = ("ec2").toList) by decide),
      if_pos (show ("lambda").toList = ("lambda").toList from rfl)]

theorem generateResourceBlock_vpc (node : Node) (edges : List Edge) (nodes : List Node)
    (hlab : node.data.label ≠ []) (hty : node.type = ("vpc").toList) :
    generateResourceBlock node edges nodes
      = .ok (generateVPCBlock node (sanitizeResourceName (jsOr node.data.label node.id)) edges nodes) := by
  simp only [generateResourceBlock]
  rw [if_neg hlab, hty]
  rw [if_neg (show ¬(("vpc").toList = ("ec2").toList) by decide),
      if_neg (show ¬(("vpc").toList = ("lambda").toList) by decide),
      if_pos (show ("vpc").toList = ("vpc").toList from rfl)]

theorem generateResourceBlock_alb (node : Node) (edges : List Edge) (nodes : List Node)
    (hlab : node.data.label ≠ []) (hty : node.type = ("alb").toList) :
    generateResourceBlock node edges nodes
      = .ok (generateALBBlock node (sanitizeResourceName (jsOr node.data.label node.id)) edges nodes) := by
  simp only [generateResourceBlock]
  rw [if_neg hlab, hty]
  rw [if_neg (show ¬(("alb").toList = ("ec2").toList) by decide),
      if_neg (show ¬(("alb").toList = ("lambda").toList) by decide),
      if_neg (show ¬(("alb").toList = ("vpc").toList) by decide),
      if_pos (show ("alb").toList = ("alb").toList from rfl)]

theorem generateResourceBlock_apigateway (node : Node) (edges : List Edge) (nodes : List Node)
    (hlab : node.data.label ≠ []) (hty : node.type = ("apigateway").toList) :
    generateResourceBlock node edges nodes
      = .ok (generateAPIGatewayBlock node (sanitizeResourceName (jsOr node.data.label node.id)) edges nodes) := by
  simp only [generateResourceBlock]
  rw [if_neg hlab, hty]
  rw [if_neg (show ¬(("apigateway").toList = ("ec2").toList) by decide),
      if_neg (show ¬(("apigateway").toList = ("lambda").toList) by decide),
      if_neg (show ¬(("apigateway").toList = ("vpc").toList) by decide),
      if_neg (show ¬(("apigateway").toList = ("alb").toList) by decide),
      if_pos (show ("apigateway").toList = ("apigateway").toList from rfl)]

theorem generateResourceBlock_s3 (node : Node) (edges : List Edge) (nodes : List Node)
    (hlab : node.data.label ≠ []) (hty : node.type = ("s3").toList) :
    generateResourceBlock node edges nodes
      = .ok (generateS3Block node (sanitizeResourceName (jsOr node.data.label node.id)) edges nodes) := by
  simp only [generateResourceBlock]
  rw [if_neg hlab, hty]
  rw [if_neg (show ¬(("s3").toList = ("ec2").toList) by decide),
      if_neg (show ¬(("s3").toList = ("lambda").toList) by decide),
      if_neg (show ¬(("s3").toList = ("vpc").toList) by decide),
      if_neg (show ¬(("s3").toList = ("alb").toList) by decide),
      if_neg (show ¬(("s3").toList = ("apigateway").toList) by decide),
      if_pos (show ("s3").toList = ("s3").toList from rfl)]

theorem generateResourceBlock_rds (node : Node) (edges : List Edge) (nodes : List Node)
    (hlab : node.data.label ≠ []) (hty : node.type = ("rds").toList) :
    generateResourceBlock node edges nodes
      = .ok (generateRDSBlock node (sanitizeResourceName (jsOr node.data.label node.id)) edges nodes) := by
  simp only [generateResourceBlock]
  rw [if_neg hlab, hty]
  rw [if_neg (show ¬(("rds").toList = ("ec2").toList) by decide),
      if_neg (show ¬(("rds").toList = ("lambda").toList) by decide),
      if_neg (show ¬(("rds").toList = ("vpc").toList) by decide),
      if_neg (show ¬(("rds").toList = ("alb").toList) by decide),
      if_neg (show ¬(("rds").toList = ("apigateway").toList) by decide),
      if_neg (show ¬(("rds").toList = ("s3").toList) by decide),
      if_pos (show ("rds").toList = ("rds").toList from rfl)]

theorem generateResourceBlock_dynamodb (node : Node) (edges : List Edge) (nodes : List Node)
    (hlab : node.data.label ≠ []) (hty : node.type = ("dynamodb").toList) :
    generateResourceBlock node edges nodes
      = .ok (generateDynamoDBBlock node (sanitizeResourceName (jsOr node.data.label node.id)) edges nodes) := by
  simp only [generateResourceBlock]
  rw [if_neg hlab, hty]
  rw [if_neg (show ¬(("dynamodb").toList = ("ec2").toList) by decide),
      if_neg (show ¬(("dynamodb").toList = ("lambda").toList) by decide),
      if_neg (show ¬(("dynamodb").toList = ("vpc").toList) by decide),
      if_neg (show ¬(("dynamodb").toList = ("alb").toList) by decide),
      if_neg (show ¬(("dynamodb").toList = ("apigateway").toList) by decide),
      if_neg (show ¬(("dynamodb").toList = ("s3").toList) by decide),
      if_neg (show ¬(("dynamodb").toList = ("rds").toList) by decide),
      if_pos (show ("dynamodb").toList = ("dynamodb").toList from rfl)]

theorem generateResourceBlock_waf (node : Node) (edges : List Edge) (nodes : List Node)
    (hlab : node.data.label ≠ []) (hty : node.type = ("waf").toList) :
    generateResourceBlock node edges nodes
      = .ok (generateWAFBlock node (sanitizeResourceName (jsOr node.data.label node.id)) edges nodes) := by
  simp only [generateResourceBlock]
  rw [if_neg hlab, hty]
  rw [if_neg (show ¬(("waf").toList = ("ec2").toList) by decide),
      if_neg (show ¬(("waf").toList = ("lambda").toList) by decide),
      if_neg (show ¬(("waf").toList = ("vpc").toList) by decide),
      if_neg (show ¬(("waf").toList = ("alb").toList) by decide),
      if_neg (show ¬(("waf").toList = ("apigateway").toList) by decide),
      if_neg (show ¬(("waf").toList = ("s3").toList) by decide),
      if_neg (show ¬(("waf").toList = ("rds").toList) by decide),
      if_neg (show ¬(("waf").toList = ("dynamodb").toList) by decide),
      if_pos (show ("waf").toList = ("waf").toList from rfl)]

theorem generateResourceBlock_error (node : Node) (edges : List Edge) (nodes : List Node)
    (hlab : node.data.label = []) :
    generateResourceBlock node edges nodes
      = .error (("Node ").toList ++ node.id ++ (" is missing required data").toList) := by
  simp only [generateResourceBlock, if_pos hlab]

theorem supportedType_cases (t : Str) (hsup : supportedType t = true) :
    t = ("ec2").toList ∨ t = ("lambda").toList ∨ t = ("vpc").toList ∨
    t = ("alb").toList ∨ t = ("apigateway").toList ∨ t = ("s3").toList ∨
    t = ("rds").toList ∨ t = ("dynamodb").toList ∨ t = ("waf").toList := by
  by_contra hc
  rw [supportedType, if_neg hc] at hsup
  cases hsup

theorem generateResourceBlock_unsupported (node : Node) (edges : List Edge)
    (nodes : List Node) (hlab : node.data.label ≠ [])
    (hsup : supportedType node.type = false) :
    generateResourceBlock node edges nodes = .ok [] := by
  have h : ¬(node.type = ("ec2").toList ∨ node.type = ("lambda").toList ∨
      node.type = ("vpc").toList ∨ node.type = ("alb").toList ∨
      node.type = ("apigateway").toList ∨ node.type = ("s3").toList ∨
      node.type = ("rds").toList ∨ node.type = ("dynamodb").toList ∨
      node.type = ("waf").toList) := by
    intro hc
    rw [supportedType, if_pos hc] at hsup
    cases hsup
  push_neg at h
  obtain ⟨h1, h2, h3, h4, h5, h6, h7, h8, h9⟩ := h
  simp only [generateResourceBlock]
  rw [if_neg hlab, if_neg h1, if_neg h2, if_neg h3, if_neg h4, if_neg h5, if_neg h6,
    if_neg h7, if_neg h8, if_neg h9]

theorem countHeaders_nil : countHeaders [] = 0 := rfl

theorem ne_nil_of_one_le_countHeaders (b : Str) (h : 1 ≤ countHeaders b) : b ≠ [] := by
  intro hb
  rw [hb] at h
  exact absurd h (by decide)

theorem generateResourceBlock_supported_count (node : Node) (edges : List Edge)
    (nodes : List Node) (hlab : node.data.label ≠ [])
    (hsup : supportedType node.type = true) :
    ∃ b, generateResourceBlock node edges nodes = .ok b ∧
      countHeaders b = (if node.type = ("s3").toList then
        1 + (if truthyBool node.data.properties.versioning then 1 else 0)
          + (if truthyBool node.data.properties.encryption then 1 else 0) else 1) := by
  have hrn : '\n' ∉ sanitizeResourceName (jsOr node.data.label node.id) :=
    noNl_sanitizeResourceName _
  rcases supportedType_cases _ hsup with hty | hty | hty | hty | hty | hty | hty | hty | hty
  · exact ⟨_, generateResourceBlock_ec2 node edges nodes hlab hty,
      by rw [countHeaders_ec2 _ _ _ _ hrn, if_neg (by rw [hty]; decide)]⟩
  · exact ⟨_, generateResourceBlock_lambda node edges nodes hlab hty,
      by rw [countHeaders_lambda _ _ _ _ hrn, if_neg (by rw [hty]; decide)]⟩
  · exact ⟨_, generateResourceBlock_vpc node edges nodes hlab hty,
      by rw [countHeaders_vpc _ _ _ _ hrn, if_neg (by rw [hty]; decide)]⟩
  · exact ⟨_, generateResourceBlock_alb node edges nodes hlab hty,
      by rw [countHeaders_alb _ _ _ _ hrn, if_neg (by rw [hty]; decide)]⟩
  · exact ⟨_, generateResourceBlock_apigateway node edges nodes hlab hty,
      by rw [countHeaders_apiGateway _ _ _ _ hrn, if_neg (by rw [hty]; decide)]⟩
  · exact ⟨_, generateResourceBlock_s3 node edges nodes hlab hty,
      by rw [countHeaders_s3 _ _ _ _ hrn, if_pos hty]⟩
  · exact ⟨_, generateResourceBlock_rds node edges nodes hlab hty,
      by rw [countHeaders_rds _ _ _ _ hrn, if_neg (by rw [hty]; decide)]⟩
  · exact ⟨_, generateResourceBlock_dynamodb node edges nodes hlab hty,
      by rw [countHeaders_dynamoDB _ _ _ _ hrn, if_neg (by rw [hty]; decide)]⟩
  · exact ⟨_, generateResourceBlock_waf node edges nodes hlab hty,
      by rw [countHeaders_waf _ _ _ _ hrn, if_neg (by rw [hty]; decide)]⟩

theorem blockOf_count (edges : List Edge) (nodes : List Node) (node : Node) :
    ((blockOf edges nodes node).map countHeaders).getD 0 = nodeHeaderCount node := by
  by_cases hvalid : node.id = [] ∨ node.type = []
  · rw [blockOf, if_pos hvalid]
    simp [nodeHeaderCount, hvalid]
  · by_cases hlab : node.data.label = []
    · rw [blockOf, if_neg hvalid, generateResourceBlock_error node edges nodes hlab]
      simp [nodeHeaderCount, hvalid, hlab]
    · by_cases hsup : supportedType node.type = true
      · obtain ⟨b, hb, hc⟩ := generateResourceBlock_supported_count node edges nodes hlab hsup
        have hone : 1 ≤ countHeaders b := by
          rw [hc]
          split <;> omega
        have hbne : b ≠ [] := ne_nil_of_one_le_countHeaders b hone
        rw [blockOf, if_neg hvalid, hb]
        dsimp only
        rw [if_neg hbne]
        simp only [Option.map_some', Option.getD_some, hc]
        simp only [nodeHeaderCount, if_neg hvalid, if_neg hlab, if_pos hsup]
      · have hf : supportedType node.type = false := by
          revert hsup
          cases supportedType node.type <;> simp
        rw [blockOf, if_neg hvalid, generateResourceBlock_unsupported node edges nodes hlab hf]
        dsimp only
        simp [nodeHeaderCount, hvalid, hlab, hf]

theorem countHeaders_filterMap (edges : List Edge) (nodes : List Node) :
    ∀ (L : List Node),
      ((L.filterMap (blockOf edges nodes)).map countHeaders).sum
        = (L.map nodeHeaderCount).sum := by
  intro L
  induction L with
  | nil => rfl
  | cons n rest ih =>
    rw [List.filterMap_cons]
    cases hb : blockOf edges nodes n with
    | none =>
      have := blockOf_count edges nodes n
      rw [hb] at this
      simp only [Option.map_none', Option.getD_none] at this
      simp [ih, ← this]
    | some b =>
      have := blockOf_count edges nodes n
      rw [hb] at this
      simp only [Option.map_some', Option.getD_some] at this
      simp [ih, this]

/- ## Whole-generator lemmas -/

theorem countHeaders_generateTerraform (nodes : List Node) (edges : List Edge) :
    countHeaders (generateTerraform nodes edges) = (nodes.map nodeHeaderCount).sum := by
  have hfm := countHeaders_filterMap edges nodes nodes
  rw [show nodes.filterMap (blockOf edges nodes) = resourceBlocksOf nodes edges from rfl] at hfm
  by_cases h0 : nodes = []
  · subst h0
    rw [generateTerraform, if_pos rfl]
    decide
  · simp only [generateTerraform, if_neg h0]
    by_cases h1 : resourceBlocksOf nodes edges = []
    · rw [if_pos h1]
      rw [h1] at hfm
      simp only [List.map_nil, List.sum_nil] at hfm
      rw [← hfm]
      decide
    · rw [if_neg h1]
      rw [countHeaders_joinSep_blocks]
      simp only [List.map_append, List.sum_append]
      rw [hfm]
      have htf : countHeaders generateTerraformBlock = 0 := by decide
      simp [htf, countHeaders_nil]

theorem mem_resourceBlocksOf (nodes : List Node) (edges : List Edge) (node : Node) (b : Str)
    (hmem : node ∈ nodes) (hb : blockOf edges nodes node = some b) :
    b ∈ resourceBlocksOf nodes edges :=
  List.mem_filterMap.2 ⟨node, hmem, hb⟩

theorem infix_generateTerraform (nodes : List Node) (edges : List Edge) (b : Str)
    (hb : b ∈ resourceBlocksOf nodes edges) :
    b.IsInfix (generateTerraform nodes edges) := by
  have h0 : nodes ≠ [] := by
    intro h
    subst h
    simp [resourceBlocksOf] at hb
  have h1 : resourceBlocksOf nodes edges ≠ [] := by
    intro h
    rw [h] at hb
    cases hb
  simp only [generateTerraform, if_neg h0, if_neg h1]
  exact infix_joinSep_of_mem _ _ _ (by simp [hb])

theorem blockOf_eq_some (edges : List Edge) (nodes : List Node) (node : Node) (b : Str)
    (hid : node.id ≠ []) (hty : node.type ≠ [])
    (hok : generateResourceBlock node edges nodes = .ok b) (hbne : b ≠ []) :
    blockOf edges nodes node = some b := by
  have hvalid : ¬(node.id = [] ∨ node.type = []) := by
    rintro (h | h)
    · exact hid h
    · exact hty h
  rw [blockOf, if_neg hvalid, hok]
  dsimp only
  rw [if_neg hbne]

theorem generateTerraform_head (nodes : List Node) (edges : List Edge)
    (h0 : nodes ≠ []) (h1 : resourceBlocksOf nodes edges ≠ []) :
    ∃ r, generateTerraform nodes edges = 't' :: r := by
  simp only [generateTerraform, if_neg h0, if_neg h1]
  obtain ⟨r, rs, hr⟩ : ∃ r rs, resourceBlocksOf nodes edges = r :: rs := by
    cases h : resourceBlocksOf nodes edges with
    | nil => exact absurd h h1
    | cons r rs => exact ⟨r, rs, rfl⟩
  rw [hr]
  exact ⟨_, rfl⟩

theorem generateTerraform_eq_blocks (nodes : List Node) (edges : List Edge)
    (h0 : nodes ≠ []) (h1 : resourceBlocksOf nodes edges ≠ []) :
    generateTerraform nodes edges
      = generateTerraformBlock ++ ("\n\n\n\n").toList
        ++ joinSep (("\n\n").toList) (resourceBlocksOf nodes edges) := by
  simp only [generateTerraform, if_neg h0, if_neg h1]
  obtain ⟨r, rs, hr⟩ : ∃ r rs, resourceBlocksOf nodes edges = r :: rs := by
    cases h : resourceBlocksOf nodes edges with
    | nil => exact absurd h h1
    | cons r rs => exact ⟨r, rs, rfl⟩
  rw [hr]
  simp only [List.cons_append, List.nil_append]
  rw [joinSep_cons_cons, joinSep_cons_cons,
    (show ("\n\n\n\n").toList = ("\n\n").toList ++ ("\n\n").toList from rfl)]
  simp [List.append_assoc]

/- ## Sanitizer fixed-point lemmas -/

theorem jsLowerChar_of_kept (c : Char) (h : keptChar c = true) : jsLowerChar c = c := by
  rw [keptChar] at h
  split at h
  case isTrue hc =>
    rw [jsLowerChar, if_neg]
    rintro ⟨hA, hZ⟩
    rcases hc with ⟨a1, a2⟩ | ⟨a1, a2⟩ | rfl
    · exact absurd (le_trans a1 hZ) (by decide)
    · exact absurd (le_trans hA a2) (by decide)
    · exact absurd hZ (by decide)
  case isFalse => cases h

theorem isDigit_false_head (c : Char) (h : ('a' ≤ c ∧ c ≤ 'z') ∨ c = '_') :
    c.isDigit = false := by
  rcases h with ⟨h1, -⟩ | rfl
  · rw [Char.isDigit]
    have h57 : ¬ c.val ≤ 57 := by
      intro hle
      have h9 : c ≤ '9' := hle
      exact absurd (le_trans h1 h9) (by decide)
    simp [h57]
  · decide

theorem sanitize_map_id (s : Str) (h : ∀ c ∈ s, keptChar c = true) :
    (s.map jsLowerChar).map (fun c => if keptChar c then c else '_') = s := by
  induction s with
  | nil => rfl
  | cons c cs ih =>
    have hc := h c (by simp)
    simp only [List.map_cons, jsLowerChar_of_kept c hc, if_pos hc]
    rw [ih (fun d hd => h d (by simp [hd]))]

theorem collapseUnderscores_id : ∀ (s : Str), hasDoubleUnderscore s = false →
    collapseUnderscores s = s
  | [], _ => rfl
  | [c], _ => rfl
  | c :: d :: rest, h => by
    rw [hasDoubleUnderscore] at h
    split at h
    · cases h
    · rename_i hcd
      rw [collapseUnderscores, if_neg hcd, collapseUnderscores_id (d :: rest) h]

/- ## Escaper fixed-point lemma -/

theorem replaceChar_id (c : Char) (r : Str) : ∀ (s : Str), c ∉ s → replaceChar c r s = s
  | [], _ => rfl
  | x :: xs, h => by
    simp only [List.mem_cons, not_or] at h
    rw [replaceChar, if_neg (fun hh => h.1 hh.symm), replaceChar_id c r xs h.2]
    rfl

/- ## Claim C4 -/

/-- C4: the claim says a label whose normalized form begins with a digit
    keeps the digit behind a prepended underscore.  The code instead
    replaces the leading digit by the underscore: the label 123-server
    (the repository's own test input, expecting _123_server) produces
    _23_server, and 9abc produces _abc with the digit 9 gone. -/
theorem c4_leading_digit_dropped :
    sanitizeResourceName (("123-server").toList) = ("_23_server").toList ∧
    sanitizeResourceName (("9abc").toList) = ("_abc").toList ∧
    '9' ∉ sanitizeResourceName (("9abc").toList) :=
  ⟨by decide, by decide, by decide⟩

/- ## Claim C7 -/

/-- C7 counterexample: the label a__b satisfies the identifier grammar
    yet sanitize collapses its underscore run, so sanitize is not the
    identity on all grammar-conforming labels. -/
theorem c7_counterexample :
    matchesIdentGrammar (("a__b").toList) = true ∧
    sanitizeResourceName (("a__b").toList) = ("a_b").toList ∧
    ¬ sanitizeResourceName (("a__b").toList) = ("a__b").toList :=
  ⟨by decide, by decide, by decide⟩

/-- C7 (amended): sanitize is the identity on every label that satisfies
    the identifier grammar and contains no run of two underscores (the
    underscore-collapsing step forces this extra condition). -/
theorem c7_sanitize_fixed_point (s : Str) (hg : matchesIdentGrammar s = true)
    (hd : hasDoubleUnderscore s = false) : sanitizeResourceName s = s := by
  cases s with
  | nil => cases hg
  | cons c rest =>
    rw [matchesIdentGrammar] at hg
    split at hg
    case isFalse => cases hg
    case isTrue hc =>
      obtain ⟨hfirst, hrest⟩ := hc
      have hkept : ∀ x ∈ c :: rest, keptChar x = true := by
        intro x hx
        rcases List.mem_cons.1 hx with rfl | hx2
        · rw [keptChar, if_pos]
          rcases hfirst with h1 | rfl
          · exact .inl h1
          · exact .inr (.inr rfl)
        · rw [keptChar, if_pos (hrest x hx2)]
      simp only [sanitizeResourceName]
      rw [sanitize_map_id _ hkept, replaceLeadingDigit,
        if_neg (show ¬(c.isDigit = true) by simp [isDigit_false_head c hfirst]),
        collapseUnderscores_id _ hd,
        if_neg (show ¬(c :: rest = []) by simp)]

/-- C7 witness: a concrete grammar-conforming label is fixed. -/
theorem c7_witness :
    sanitizeResourceName (("web_server_1").toList) = ("web_server_1").toList :=
  c7_sanitize_fixed_point (("web_server_1").toList) (by decide) (by decide)

/- ## Claim C8 -/

/-- C8: the escaper is the identity on strings containing none of the
    five reserved characters, and it is the order-sensitive composition
    backslash first, then double quote, newline, carriage return, tab;
    the two concrete evaluations evidence the order (swapping the first
    two replacements would turn a quote into backslash backslash quote). -/
theorem c8_escape_fixed_point_and_order :
    (∀ s : Str, (∀ c ∈ s, c ∉ (("\\\"\n\r\t").toList)) → escapeHCLString s = s) ∧
    (∀ s : Str, escapeHCLString s
      = replaceChar '\t' (("\\t").toList)
          (replaceChar '\r' (("\\r").toList)
            (replaceChar '\n' (("\\n").toList)
              (replaceChar '"' (("\\\"").toList)
                (replaceChar '\\' (("\\\\").toList) s))))) ∧
    escapeHCLString ['\\'] = ['\\', '\\'] ∧
    escapeHCLString ['"'] = ['\\', '"'] := by
  refine ⟨?_, fun s => rfl, by decide, by decide⟩
  intro s h
  have h1 : '\\' ∉ s := fun hm => (h '\\' hm) (by decide)
  have h2 : '"' ∉ s := fun hm => (h '"' hm) (by decide)
  have h3 : '\n' ∉ s := fun hm => (h '\n' hm) (by decide)
  have h4 : '\r' ∉ s := fun hm => (h '\r' hm) (by decide)
  have h5 : '\t' ∉ s := fun hm => (h '\t' hm) (by decide)
  rw [escapeHCLString, replaceChar_id _ _ s h1, replaceChar_id _ _ s h2,
    replaceChar_id _ _ s h3, replaceChar_id _ _ s h4, replaceChar_id _ _ s h5]

/-- C8 witness: a concrete reserved-character-free string is fixed. -/
theorem c8_witness : escapeHCLString (("hello world").toList) = ("hello world").toList :=
  c8_escape_fixed_point_and_order.1 (("hello world").toList) (by decide)

/- ## Claim C6 -/

/-- C6: the empty node list yields the comment-shaped empty-graph marker
    (not the empty string); a non-empty node list producing no block
    yields the distinct no-valid-resources marker; the two markers are
    distinct non-empty comment-shaped literals; and any output with at
    least one block differs from both markers. -/
theorem c6_sentinels :
    (∀ edges : List Edge, generateTerraform [] edges = emptyGraphMarker) ∧
    (∀ (nodes : List Node) (edges : List Edge), nodes ≠ [] →
      resourceBlocksOf nodes edges = [] →
      generateTerraform nodes edges = noValidResourcesMarker) ∧
    emptyGraphMarker ≠ noValidResourcesMarker ∧
    emptyGraphMarker ≠ [] ∧ noValidResourcesMarker ≠ [] ∧
    emptyGraphMarker.headD ' ' = '#' ∧ noValidResourcesMarker.headD ' ' = '#' ∧
    (∀ (nodes : List Node) (edges : List Edge), resourceBlocksOf nodes edges ≠ [] →
      nodes ≠ [] → generateTerraform nodes edges ≠ emptyGraphMarker ∧
        generateTerraform nodes edges ≠ noValidResourcesMarker) := by
  refine ⟨?_, ?_, by decide, by decide, by decide, by decide, by decide, ?_⟩
  · intro edges
    rw [generateTerraform, if_pos rfl]
  · intro nodes edges h0 h1
    simp only [generateTerraform, if_neg h0, if_pos h1]
  · intro nodes edges h1 h0
    obtain ⟨r, hr⟩ := generateTerraform_head nodes edges h0 h1
    constructor <;> intro heq <;> rw [heq] at hr
    · have h2 : emptyGraphMarker.headD ' ' = 't' := by rw [hr]; rfl
      exact absurd h2 (by decide)
    · have h2 : noValidResourcesMarker.headD ' ' = 't' := by rw [hr]; rfl
      exact absurd h2 (by decide)

/-- C6 witness: the sentinel cases at concrete inputs. -/
theorem c6_witness :
    generateTerraform [] [] = emptyGraphMarker ∧
    generateTerraform [⟨("n1").toList, ("unknown").toList, ⟨("x").toList, noProps⟩⟩] []
      = noValidResourcesMarker ∧
    generateTerraform [⟨("n1").toList, ("ec2").toList, ⟨("web").toList, noProps⟩⟩] []
      ≠ emptyGraphMarker :=
  ⟨c6_sentinels.1 [],
   c6_sentinels.2.1 [⟨("n1").toList, ("unknown").toList, ⟨("x").toList, noProps⟩⟩] []
     (by decide) (by decide),
   (c6_sentinels.2.2.2.2.2.2.2 [⟨("n1").toList, ("ec2").toList, ⟨("web").toList, noProps⟩⟩] []
     (by decide) (by decide)).1⟩

/- ## Claim C10 -/

/-- C10: whenever at least one node produces a block, the output is the
    fixed terraform configuration block, a blank-line spacer, and then
    the resource blocks, so the input-independent prefix declaring the
    required core and provider versions precedes every resource
    declaration. -/
theorem c10_terraform_prefix (nodes : List Node) (edges : List Edge)
    (h0 : nodes ≠ []) (h1 : resourceBlocksOf nodes edges ≠ []) :
    generateTerraform nodes edges
      = generateTerraformBlock ++ ("\n\n\n\n").toList
        ++ joinSep (("\n\n").toList) (resourceBlocksOf nodes edges) ∧
    (("required_version = \">= 1.5.0\"").toList).IsInfix generateTerraformBlock ∧
    (("version = \"~> 5.0\"").toList).IsInfix generateTerraformBlock ∧
    (("hashicorp/aws").toList).IsInfix generateTerraformBlock :=
  ⟨generateTerraform_eq_blocks nodes edges h0 h1, by decide, by decide, by decide⟩

/-- C10 witness: the prefix equation at a concrete one-node graph. -/
theorem c10_witness :
    generateTerraform [⟨("n1").toList, ("ec2").toList, ⟨("web").toList, noProps⟩⟩] []
      = generateTerraformBlock ++ ("\n\n\n\n").toList
        ++ joinSep (("\n\n").toList)
          (resourceBlocksOf [⟨("n1").toList, ("ec2").toList, ⟨("web").toList, noProps⟩⟩] []) ∧
    (("required_version = \">= 1.5.0\"").toList).IsInfix generateTerraformBlock ∧
    (("version = \"~> 5.0\"").toList).IsInfix generateTerraformBlock ∧
    (("hashicorp/aws").toList).IsInfix generateTerraformBlock :=
  c10_terraform_prefix [⟨("n1").toList, ("ec2").toList, ⟨("web").toList, noProps⟩⟩] []
    (by decide) (by decide)

/- ## Claim C2 -/

/-- C2 counterexample: a single well-formed S3 node with versioning
    enabled is one supported node, yet the output contains two
    declaration headers, so the output does not contain exactly one
    declaration header per supported node. -/
theorem c2_counterexample :
    countHeaders (generateTerraform
      [⟨("n1").toList, ("s3").toList, ⟨("b").toList,
        { noProps with versioning := some true }⟩⟩] []) = 2 ∧ (2 : Nat) ≠ 1 :=
  ⟨by decide, by decide⟩

/-- C2 (amended): the number of declaration headers in the output equals
    the sum over the nodes of their header contribution: one per valid
    node of a supported kind, plus one per enabled S3 capability, and
    none for invalid or unsupported nodes. -/
theorem c2_header_count (nodes : List Node) (edges : List Edge) :
    countHeaders (generateTerraform nodes edges) = (nodes.map nodeHeaderCount).sum :=
  countHeaders_generateTerraform nodes edges

/- ## Claim C5 -/

/-- C5: the exported generator throws exactly when an argument is not an
    array; a node with a falsy id or kind, or one whose block generation
    errors, contributes nothing; and every valid node's non-empty block
    still appears verbatim in the returned string whatever the other
    nodes are. -/
theorem c5_error_and_skip :
    (∀ (ni : JSInput Node) (ei : JSInput Edge),
      (∃ msg, generateTerraformTop ni ei = .error msg) ↔
        (ni = JSInput.notArray ∨ ei = JSInput.notArray)) ∧
    (∀ (edges : List Edge) (nodes : List Node) (node : Node),
      node.id = [] ∨ node.type = [] ∨
          (∃ m, generateResourceBlock node edges nodes = .error m) →
      blockOf edges nodes node = none) ∧
    (∀ (nodes : List Node) (edges : List Edge) (node : Node) (b : Str),
      node ∈ nodes → node.id ≠ [] → node.type ≠ [] →
      generateResourceBlock node edges nodes = .ok b → b ≠ [] →
      b.IsInfix (generateTerraform nodes edges)) := by
  refine ⟨?_, ?_, ?_⟩
  · intro ni ei
    constructor
    · rintro ⟨msg, hmsg⟩
      cases ni <;> cases ei
      · simp [generateTerraformTop] at hmsg
      · exact .inr rfl
      · exact .inl rfl
      · exact .inl rfl
    · rintro (rfl | rfl)
      · cases ei <;> exact ⟨_, rfl⟩
      · cases ni <;> exact ⟨_, rfl⟩
  · intro edges nodes node h
    rcases h with h | h | ⟨m, hm⟩
    · rw [blockOf, if_pos (.inl h)]
    · rw [blockOf, if_pos (.inr h)]
    · by_cases hvalid : node.id = [] ∨ node.type = []
      · rw [blockOf, if_pos hvalid]
      · rw [blockOf, if_neg hvalid, hm]
  · intro nodes edges node b hmem hid hty hok hbne
    exact infix_generateTerraform nodes edges b
      (mem_resourceBlocksOf nodes edges node b hmem
        (blockOf_eq_some edges nodes node b hid hty hok hbne))

/-- C5 witness: non-array input errors; a node missing its label is
    skipped; a valid node's block appears in the output of a mixed
    graph. -/
theorem c5_witness :
    (∃ msg, generateTerraformTop JSInput.notArray (JSInput.arr ([] : List Edge))
      = .error msg) ∧
    blockOf [] [⟨("bad").toList, ("ec2").toList, ⟨[], noProps⟩⟩]
      ⟨("bad").toList, ("ec2").toList, ⟨[], noProps⟩⟩ = none ∧
    (generateEC2Block ⟨("n1").toList, ("ec2").toList, ⟨("web").toList, noProps⟩⟩
        (sanitizeResourceName (("web").toList)) []
        [⟨("bad").toList, ("ec2").toList, ⟨[], noProps⟩⟩,
         ⟨("n1").toList, ("ec2").toList, ⟨("web").toList, noProps⟩⟩]).IsInfix
      (generateTerraform
        [⟨("bad").toList, ("ec2").toList, ⟨[], noProps⟩⟩,
         ⟨("n1").toList, ("ec2").toList, ⟨("web").toList, noProps⟩⟩] []) :=
  ⟨(c5_error_and_skip.1 JSInput.notArray (JSInput.arr [])).mpr (.inl rfl),
   c5_error_and_skip.2.1 [] [⟨("bad").toList, ("ec2").toList, ⟨[], noProps⟩⟩]
     ⟨("bad").toList, ("ec2").toList, ⟨[], noProps⟩⟩
     (.inr (.inr ⟨(("Node bad is missing required data")).toList, rfl⟩)),
   c5_error_and_skip.2.2
     [⟨("bad").toList, ("ec2").toList, ⟨[], noProps⟩⟩,
      ⟨("n1").toList, ("ec2").toList, ⟨("web").toList, noProps⟩⟩] []
     ⟨("n1").toList, ("ec2").toList, ⟨("web").toList, noProps⟩⟩
     (generateEC2Block ⟨("n1").toList, ("ec2").toList, ⟨("web").toList, noProps⟩⟩
       (sanitizeResourceName (("web").toList)) []
       [⟨("bad").toList, ("ec2").toList, ⟨[], noProps⟩⟩,
        ⟨("n1").toList, ("ec2").toList, ⟨("web").toList, noProps⟩⟩])
     (by decide) (by decide) (by decide) rfl (by decide)⟩

/- ## Line membership in the whole output -/

theorem mem_lines_generateTerraform (nodes : List Node) (edges : List Edge) (b l : Str)
    (hb : b ∈ resourceBlocksOf nodes edges) (hl : l ∈ splitLines b) :
    l ∈ splitLines (generateTerraform nodes edges) := by
  have h0 : nodes ≠ [] := by
    intro h
    subst h
    simp [resourceBlocksOf] at hb
  have h1 : resourceBlocksOf nodes edges ≠ [] := by
    intro h
    rw [h] at hb
    cases hb
  simp only [generateTerraform, if_neg h0, if_neg h1]
  exact mem_splitLines_joinSep_blocks _ b (by simp [hb]) l hl

/- ## Counting references per edge -/

theorem count_le_reduceOption_map {α β : Type} [BEq α] [LawfulBEq α] [BEq β] [LawfulBEq β]
    (f : α → Option β) (a : α) (b : β) (hf : f a = some b) :
    ∀ (l : List α), l.count a ≤ ((l.map f).reduceOption.count b)
  | [] => Nat.le_refl 0
  | x :: xs => by
    rw [List.map_cons, List.count_cons]
    by_cases hx : x = a
    · subst hx
      rw [hf, List.reduceOption_cons_of_some, List.count_cons]
      have ih := count_le_reduceOption_map f x b hf xs
      rw [if_pos (beq_self_eq_true x), if_pos (beq_self_eq_true b)]
      omega
    · rw [if_neg (by simp [hx])]
      have ih := count_le_reduceOption_map f a b hf xs
      cases hfx : f x with
      | none =>
        rw [List.reduceOption_cons_of_none]
        omega
      | some y =>
        rw [List.reduceOption_cons_of_some, List.count_cons]
        have h1 := Nat.le_add_right ((List.map f xs).reduceOption.count b)
          (if (y == b) = true then 1 else 0)
        omega

theorem mem_dependsOnSegment_ec2 (node : Node) (rn : Str) (depSeg : List Str) :
    ∀ l ∈ depSeg, l ∈ ec2LinesWith node rn depSeg := by
  intro l hl
  simp only [ec2LinesWith, List.mem_append]
  tauto

theorem mem_dependsOnSegment_rds (node : Node) (rn : Str) (depSeg : List Str) :
    ∀ l ∈ depSeg, l ∈ rdsLinesWith node rn depSeg := by
  intro l hl
  simp only [rdsLinesWith, List.mem_append]
  tauto

theorem mem_dependsOnSegment_lambda (node : Node) (rn : Str) (depSeg : List Str) :
    ∀ l ∈ depSeg, l ∈ lambdaLinesWith node rn depSeg := by
  intro l hl
  simp only [lambdaLinesWith, List.mem_append]
  tauto

theorem mem_dependsOnSegment_vpc (node : Node) (rn : Str) (depSeg : List Str) :
    ∀ l ∈ depSeg, l ∈ vpcLinesWith node rn depSeg := by
  intro l hl
  simp only [vpcLinesWith, List.mem_append]
  tauto

theorem mem_dependsOnSegment_alb (node : Node) (rn : Str) (depSeg : List Str) :
    ∀ l ∈ depSeg, l ∈ albLinesWith node rn depSeg := by
  intro l hl
  simp only [albLinesWith, List.mem_append]
  tauto

theorem mem_dependsOnSegment_apiGateway (node : Node) (rn : Str) (depSeg : List Str) :
    ∀ l ∈ depSeg, l ∈ apiGatewayLinesWith node rn depSeg := by
  intro l hl
  simp only [apiGatewayLinesWith, List.mem_append]
  tauto

theorem mem_dependsOnSegment_dynamoDB (node : Node) (rn : Str) (depSeg : List Str) :
    ∀ l ∈ depSeg, l ∈ dynamoDBLinesWith node rn depSeg := by
  intro l hl
  simp only [dynamoDBLinesWith, List.mem_append]
  tauto

theorem mem_dependsOnSegment_waf (node : Node) (rn : Str) (depSeg : List Str) :
    ∀ l ∈ depSeg, l ∈ wafLinesWith node rn depSeg := by
  intro l hl
  simp only [wafLinesWith, List.mem_append]
  tauto

theorem mem_dependsOnSegment_s3 (node : Node) (rn : Str) (edges : List Edge)
    (nodes : List Node) :
    ∀ l ∈ dependsOnSegment node.id edges nodes, l ∈ s3CombinedLines node rn edges nodes := by
  intro l hl
  simp only [s3CombinedLines, s3PrimaryLines, s3PrimaryLinesWith, List.mem_append]
  tauto

/- ## Claim C3 -/

/-- C3: an S3 node's block carries one primary header plus one auxiliary
    header per enabled capability, each auxiliary independent of the
    other; with both versioning and encryption enabled the output holds
    three declaration headers for that node, the auxiliary blocks named
    by the _versioning and _encryption suffixes, and each auxiliary
    references the primary bucket's identity. -/
theorem c3_s3_auxiliary_blocks :
    (∀ (node : Node) (rn : Str) (edges : List Edge) (nodes : List Node), '\n' ∉ rn →
      countHeaders (generateS3Block node rn edges nodes)
        = 1 + (if truthyBool node.data.properties.versioning then 1 else 0)
            + (if truthyBool node.data.properties.encryption then 1 else 0)) ∧
    (∀ (nodes : List Node) (edges : List Edge) (node : Node),
      node ∈ nodes → node.id ≠ [] → node.type = ("s3").toList →
      node.data.label ≠ [] →
      truthyBool node.data.properties.versioning = true →
      truthyBool node.data.properties.encryption = true →
      countHeaders (generateS3Block node
        (sanitizeResourceName (jsOr node.data.label node.id)) edges nodes) = 3 ∧
      (("resource \"aws_s3_bucket\" \"").toList
          ++ sanitizeResourceName (jsOr node.data.label node.id) ++ ("\" \x7b").toList)
        ∈ splitLines (generateTerraform nodes edges) ∧
      (("resource \"aws_s3_bucket_versioning\" \"").toList
          ++ sanitizeResourceName (jsOr node.data.label node.id)
          ++ ("_versioning\" \x7b").toList)
        ∈ splitLines (generateTerraform nodes edges) ∧
      (("resource \"aws_s3_bucket_server_side_encryption_configuration\" \"").toList
          ++ sanitizeResourceName (jsOr node.data.label node.id)
          ++ ("_encryption\" \x7b").toList)
        ∈ splitLines (generateTerraform nodes edges) ∧
      (("  bucket = aws_s3_bucket.").toList
          ++ sanitizeResourceName (jsOr node.data.label node.id) ++ (".id").toList)
        ∈ splitLines (generateTerraform nodes edges)) := by
  constructor
  · intro node rn edges nodes hrn
    exact countHeaders_s3 node rn edges nodes hrn
  · intro nodes edges node hmem hid hty hlab hv he
    have hrn : '\n' ∉ sanitizeResourceName (jsOr node.data.label node.id) :=
      noNl_sanitizeResourceName _
    have hok := generateResourceBlock_s3 node edges nodes hlab hty
    have hcount : countHeaders (generateS3Block node
        (sanitizeResourceName (jsOr node.data.label node.id)) edges nodes) = 3 := by
      rw [countHeaders_s3 _ _ _ _ hrn, hv, he]
      simp
    have hbne : generateS3Block node
        (sanitizeResourceName (jsOr node.data.label node.id)) edges nodes ≠ [] :=
      ne_nil_of_one_le_countHeaders _ (by omega)
    have hsome := blockOf_eq_some edges nodes node _ hid (by rw [hty]; decide) hok hbne
    have hrb := mem_resourceBlocksOf nodes edges node _ hmem hsome
    have hlines := splitLines_s3 node
      (sanitizeResourceName (jsOr node.data.label node.id)) edges nodes hrn
    refine ⟨hcount, ?_, ?_, ?_, ?_⟩
    · refine mem_lines_generateTerraform nodes edges _ _ hrb ?_
      rw [hlines]
      simp [s3CombinedLines, s3PrimaryLines, s3PrimaryLinesWith]
    · refine mem_lines_generateTerraform nodes edges _ _ hrb ?_
      rw [hlines]
      simp only [s3CombinedLines, List.mem_append, hv]
      refine .inl (.inr ?_)
      simp [s3VersioningSegment, s3VersioningTail]
    · refine mem_lines_generateTerraform nodes edges _ _ hrb ?_
      rw [hlines]
      simp only [s3CombinedLines, List.mem_append, he]
      refine .inr ?_
      simp [s3EncryptionSegment, s3EncryptionTail]
    · refine mem_lines_generateTerraform nodes edges _ _ hrb ?_
      rw [hlines]
      simp only [s3CombinedLines, List.mem_append, hv]
      refine .inl (.inr ?_)
      simp [s3VersioningSegment, s3VersioningTail]

/-- C3 witness: a concrete bucket node with both capabilities enabled. -/
theorem c3_witness :
    countHeaders (generateS3Block
      ⟨("n1").toList, ("s3").toList, ⟨("store").toList,
        { noProps with versioning := some true, encryption := some true }⟩⟩
      (sanitizeResourceName (jsOr (("store").toList) (("n1").toList))) []
      [⟨("n1").toList, ("s3").toList, ⟨("store").toList,
        { noProps with versioning := some true, encryption := some true }⟩⟩]) = 3 ∧
    (("resource \"aws_s3_bucket\" \"").toList
        ++ sanitizeResourceName (jsOr (("store").toList) (("n1").toList))
        ++ ("\" \x7b").toList)
      ∈ splitLines (generateTerraform
        [⟨("n1").toList, ("s3").toList, ⟨("store").toList,
          { noProps with versioning := some true, encryption := some true }⟩⟩] []) ∧
    (("resource \"aws_s3_bucket_versioning\" \"").toList
        ++ sanitizeResourceName (jsOr (("store").toList) (("n1").toList))
        ++ ("_versioning\" \x7b").toList)
      ∈ splitLines (generateTerraform
        [⟨("n1").toList, ("s3").toList, ⟨("store").toList,
          { noProps with versioning := some true, encryption := some true }⟩⟩] []) ∧
    (("resource \"aws_s3_bucket_server_side_encryption_configuration\" \"").toList
        ++ sanitizeResourceName (jsOr (("store").toList) (("n1").toList))
        ++ ("_encryption\" \x7b").toList)
      ∈ splitLines (generateTerraform
        [⟨("n1").toList, ("s3").toList, ⟨("store").toList,
          { noProps with versioning := some true, encryption := some true }⟩⟩] []) ∧
    (("  bucket = aws_s3_bucket.").toList
        ++ sanitizeResourceName (jsOr (("store").toList) (("n1").toList))
        ++ (".id").toList)
      ∈ splitLines (generateTerraform
        [⟨("n1").toList, ("s3").toList, ⟨("store").toList,
          { noProps with versioning := some true, encryption := some true }⟩⟩] []) :=
  c3_s3_auxiliary_blocks.2
    [⟨("n1").toList, ("s3").toList, ⟨("store").toList,
      { noProps with versioning := some true, encryption := some true }⟩⟩] []
    ⟨("n1").toList, ("s3").toList, ⟨("store").toList,
      { noProps with versioning := some true, encryption := some true }⟩⟩
    (by decide) (by decide) (by decide) (by decide) (by decide) (by decide)

/- ## Claim C1 -/

theorem refOfDep_resolves (nodes : List Node) (s : Node) (srcId : Str)
    (hs : nodes.find? (fun n => n.id == srcId) = some s) :
    refOfDep nodes srcId = some (terraformTypeFor s.type ++ (".").toList
      ++ sanitizeResourceName (jsOr s.data.label s.id)) := by
  simp only [refOfDep, hs]

theorem find_target_id (nodes : List Node) (t : Node) (tid : Str)
    (ht : nodes.find? (fun n => n.id == tid) = some t) : t.id = tid := by
  have h := List.find?_some ht
  simpa using h

theorem findDependencies_count (nodeId srcId : Str) (edges : List Edge) :
    (findDependencies nodeId edges).count srcId
      = (edges.filter (fun ed => ed.source == srcId && ed.target == nodeId)).length := by
  rw [findDependencies, List.count_eq_countP, List.countP_map, List.countP_filter,
    List.countP_eq_length_filter]
  rfl

theorem mem_refsOf_of_edge (e : Edge) (edges : List Edge) (nodes : List Node)
    (t : Node) (ref : Str) (he : e ∈ edges) (htid : t.id = e.target)
    (href : refOfDep nodes e.source = some ref) :
    ref ∈ refsOf t.id edges nodes := by
  rw [refsOf]
  apply List.reduceOption_mem_iff.2
  apply List.mem_map.2
  refine ⟨e.source, ?_, href⟩
  rw [findDependencies]
  apply List.mem_map.2
  refine ⟨e, ?_, rfl⟩
  apply List.mem_filter.2
  exact ⟨he, by simp [htid]⟩

theorem ref_infix_block (t : Node) (edges : List Edge) (nodes : List Node) (ref : Str)
    (hlab : t.data.label ≠ []) (hsup : supportedType t.type = true)
    (href : ref ∈ refsOf t.id edges nodes) :
    ∃ b, generateResourceBlock t edges nodes = .ok b ∧ ref.IsInfix b := by
  have hne : refsOf t.id edges nodes ≠ [] := List.ne_nil_of_mem href
  rcases dependsOnSegment_shape t.id edges nodes with ⟨h1, -⟩ | ⟨-, hseg⟩
  · exact absurd h1 hne
  have hrefLine : ref.IsInfix (("depends_on = [").toList
      ++ joinSep ((", ").toList) (refsOf t.id edges nodes) ++ ("]").toList) :=
    (infix_joinSep_of_mem _ _ _ href).trans ⟨("depends_on = [").toList, ("]").toList, rfl⟩
  have hmemSeg : (("depends_on = [").toList
      ++ joinSep ((", ").toList) (refsOf t.id edges nodes) ++ ("]").toList)
      ∈ dependsOnSegment t.id edges nodes := by
    rw [hseg]
    simp
  rcases supportedType_cases _ hsup with hty | hty | hty | hty | hty | hty | hty | hty | hty
  · exact ⟨_, generateResourceBlock_ec2 t edges nodes hlab hty,
      hrefLine.trans (infix_joinSep_of_mem nl _ _
        (mem_dependsOnSegment_ec2 t _ _ _ hmemSeg))⟩
  · exact ⟨_, generateResourceBlock_lambda t edges nodes hlab hty,
      hrefLine.trans (infix_joinSep_of_mem nl _ _
        (mem_dependsOnSegment_lambda t _ _ _ hmemSeg))⟩
  · exact ⟨_, generateResourceBlock_vpc t edges nodes hlab hty,
      hrefLine.trans (infix_joinSep_of_mem nl _ _
        (mem_dependsOnSegment_vpc t _ _ _ hmemSeg))⟩
  · exact ⟨_, generateResourceBlock_alb t edges nodes hlab hty,
      hrefLine.trans (infix_joinSep_of_mem nl _ _
        (mem_dependsOnSegment_alb t _ _ _ hmemSeg))⟩
  · exact ⟨_, generateResourceBlock_apigateway t edges nodes hlab hty,
      hrefLine.trans (infix_joinSep_of_mem nl _ _
        (mem_dependsOnSegment_apiGateway t _ _ _ hmemSeg))⟩
  · refine ⟨_, generateResourceBlock_s3 t edges nodes hlab hty, ?_⟩
    rw [generateS3Block_eq_joinSep]
    exact hrefLine.trans (infix_joinSep_of_mem nl _ _
      (mem_dependsOnSegment_s3 t _ edges nodes _ hmemSeg))
  · exact ⟨_, generateResourceBlock_rds t edges nodes hlab hty,
      hrefLine.trans (infix_joinSep_of_mem nl _ _
        (mem_dependsOnSegment_rds t _ _ _ hmemSeg))⟩
  · exact ⟨_, generateResourceBlock_dynamodb t edges nodes hlab hty,
      hrefLine.trans (infix_joinSep_of_mem nl _ _
        (mem_dependsOnSegment_dynamoDB t _ _ _ hmemSeg))⟩
  · exact ⟨_, generateResourceBlock_waf t edges nodes hlab hty,
      hrefLine.trans (infix_joinSep_of_mem nl _ _
        (mem_dependsOnSegment_waf t _ _ _ hmemSeg))⟩

/-- C1: for an edge whose endpoints both resolve to supported nodes and
    whose target carries a label, (1) the source resolves to the
    reference built from its declaration type, a dot, and its sanitized
    label-or-id; (2) the resolved reference list of the target follows the
    edge-list order of the edges targeting it, with no deduplication;
    (3) every edge with these endpoints — self-loops and duplicates
    included — contributes an occurrence of the reference; and (4) the
    target's generated block contains the reference. -/
theorem c1_edge_dependency_reference (nodes : List Node) (edges : List Edge)
    (e : Edge) (s t : Node)
    (he : e ∈ edges)
    (hs : nodes.find? (fun n => n.id == e.source) = some s)
    (ht : nodes.find? (fun n => n.id == e.target) = some t)
    (_hsups : supportedType s.type = true)
    (hsupt : supportedType t.type = true)
    (hlabt : t.data.label ≠ []) :
    refOfDep nodes e.source = some (terraformTypeFor s.type ++ (".").toList
      ++ sanitizeResourceName (jsOr s.data.label s.id)) ∧
    refsOf t.id edges nodes
      = ((edges.filter (fun ed => ed.target == t.id)).map
          (fun ed => refOfDep nodes ed.source)).reduceOption ∧
    (edges.filter (fun ed => ed.source == e.source && ed.target == t.id)).length
      ≤ (refsOf t.id edges nodes).count (terraformTypeFor s.type ++ (".").toList
          ++ sanitizeResourceName (jsOr s.data.label s.id)) ∧
    ∃ b, generateResourceBlock t edges nodes = .ok b ∧
      (terraformTypeFor s.type ++ (".").toList
        ++ sanitizeResourceName (jsOr s.data.label s.id)).IsInfix b := by
  have htid : t.id = e.target := find_target_id nodes t e.target ht
  have href := refOfDep_resolves nodes s e.source hs
  refine ⟨href, ?_, ?_, ?_⟩
  · rw [refsOf, findDependencies, List.map_map]
    rfl
  · calc (edges.filter (fun ed => ed.source == e.source && ed.target == t.id)).length
        = (findDependencies t.id edges).count e.source :=
          (findDependencies_count t.id e.source edges).symm
      _ ≤ _ := count_le_reduceOption_map (refOfDep nodes) e.source _ href
          (findDependencies t.id edges)
  · exact ref_infix_block t edges nodes _ hlabt hsupt
      (mem_refsOf_of_edge e edges nodes t _ he htid href)

/-- C1 witness: one EC2 node with a self-loop edge listed twice.  The
    source resolves to aws_instance.web, the reference list follows the
    edge order, both duplicate edges count, and the reference sits inside
    the node's own generated block. -/
theorem c1_witness :
    refOfDep [(⟨("a").toList, ("ec2").toList, ⟨("web").toList, noProps⟩⟩ : Node)]
        (("a").toList)
      = some (("aws_instance.web").toList) ∧
    refsOf (("a").toList)
        [(⟨("e1").toList, ("a").toList, ("a").toList⟩ : Edge),
         ⟨("e1").toList, ("a").toList, ("a").toList⟩]
        [⟨("a").toList, ("ec2").toList, ⟨("web").toList, noProps⟩⟩]
      = ((([(⟨("e1").toList, ("a").toList, ("a").toList⟩ : Edge),
            ⟨("e1").toList, ("a").toList, ("a").toList⟩].filter
              (fun ed => ed.target == ("a").toList)).map
          (fun ed => refOfDep
            [(⟨("a").toList, ("ec2").toList, ⟨("web").toList, noProps⟩⟩ : Node)]
            ed.source)).reduceOption) ∧
    ([(⟨("e1").toList, ("a").toList, ("a").toList⟩ : Edge),
      ⟨("e1").toList, ("a").toList, ("a").toList⟩].filter
        (fun ed => ed.source == ("a").toList && ed.target == ("a").toList)).length
      ≤ (refsOf (("a").toList)
          [(⟨("e1").toList, ("a").toList, ("a").toList⟩ : Edge),
           ⟨("e1").toList, ("a").toList, ("a").toList⟩]
          [⟨("a").toList, ("ec2").toList, ⟨("web").toList, noProps⟩⟩]).count
            (("aws_instance.web").toList) ∧
    ∃ b, generateResourceBlock
        (⟨("a").toList, ("ec2").toList, ⟨("web").toList, noProps⟩⟩ : Node)
        [⟨("e1").toList, ("a").toList, ("a").toList⟩,
         ⟨("e1").toList, ("a").toList, ("a").toList⟩]
        [⟨("a").toList, ("ec2").toList, ⟨("web").toList, noProps⟩⟩] = .ok b ∧
      (("aws_instance.web").toList).IsInfix b :=
  c1_edge_dependency_reference
    [⟨("a").toList, ("ec2").toList, ⟨("web").toList, noProps⟩⟩]
    [⟨("e1").toList, ("a").toList, ("a").toList⟩,
     ⟨("e1").toList, ("a").toList, ("a").toList⟩]
    ⟨("e1").toList, ("a").toList, ("a").toList⟩
    ⟨("a").toList, ("ec2").toList, ⟨("web").toList, noProps⟩⟩
    ⟨("a").toList, ("ec2").toList, ⟨("web").toList, noProps⟩⟩
    (by decide) rfl rfl (by decide) (by decide) (by decide)

/- ## Claim C9: the cached generator refines the pure one -/

theorem cacheLookup_valid {β : Type} (F : Str → β) (k : Str) :
    ∀ (c : List (Str × β)), (∀ kv ∈ c, kv.2 = F kv.1) →
      ∀ v, cacheLookup k c = some v → v = F k
  | [], _, v, h => by simp [cacheLookup] at h
  | kv :: rest, hv, v, h => by
    rw [cacheLookup] at h
    by_cases hk : kv.1 = k
    · rw [if_pos hk] at h
      simp only [Option.some.injEq] at h
      rw [← h, hv kv (by simp), hk]
    · rw [if_neg hk] at h
      exact cacheLookup_valid F k rest (fun x hx => hv x (by simp [hx])) v h

theorem sanitizeResourceNameC_spec (name : Str) (st : GenCaches)
    (h : ValidSanCache st.sanitizedNameCache) :
    (sanitizeResourceNameC name st).1 = sanitizeResourceName name ∧
    ValidSanCache (sanitizeResourceNameC name st).2.sanitizedNameCache ∧
    (sanitizeResourceNameC name st).2.dependencyCache = st.dependencyCache := by
  cases hc : cacheLookup name st.sanitizedNameCache with
  | none =>
    simp only [sanitizeResourceNameC, hc]
    refine ⟨by trivial, ?_, by trivial⟩
    intro kv hkv
    rcases List.mem_cons.1 hkv with rfl | hkv
    · rfl
    · exact h kv hkv
  | some cached =>
    simp only [sanitizeResourceNameC, hc]
    exact ⟨cacheLookup_valid sanitizeResourceName name st.sanitizedNameCache h cached hc,
      h, by trivial⟩

theorem findDependenciesC_spec (nodeId : Str) (edges : List Edge) (st : GenCaches)
    (h : ValidDepCache edges st.dependencyCache) :
    (findDependenciesC nodeId edges st).1 = findDependencies nodeId edges ∧
    (findDependenciesC nodeId edges st).2.sanitizedNameCache = st.sanitizedNameCache ∧
    ValidDepCache edges (findDependenciesC nodeId edges st).2.dependencyCache := by
  cases hc : cacheLookup nodeId st.dependencyCache with
  | none =>
    simp only [findDependenciesC, hc]
    refine ⟨by trivial, by trivial, ?_⟩
    intro kv hkv
    rcases List.mem_cons.1 hkv with rfl | hkv
    · rfl
    · exact h kv hkv
  | some cached =>
    simp only [findDependenciesC, hc]
    exact ⟨cacheLookup_valid (fun k => findDependencies k edges) nodeId
      st.dependencyCache h cached hc, by trivial, h⟩

theorem depRefsC_spec : ∀ (deps : List Str) (nodes : List Node) (st : GenCaches),
    ValidSanCache st.sanitizedNameCache →
    (depRefsC deps nodes st).1 = (deps.map (refOfDep nodes)).reduceOption ∧
    ValidSanCache (depRefsC deps nodes st).2.sanitizedNameCache ∧
    (depRefsC deps nodes st).2.dependencyCache = st.dependencyCache
  | [], nodes, st, h => ⟨rfl, h, rfl⟩
  | depId :: rest, nodes, st, h => by
    cases hf : nodes.find? (fun n => n.id == depId) with
    | none =>
      have ih := depRefsC_spec rest nodes st h
      simp only [depRefsC, hf]
      refine ⟨?_, ih.2.1, ih.2.2⟩
      rw [List.map_cons, ih.1]
      simp only [refOfDep, hf]
      rw [List.reduceOption_cons_of_none]
    | some depNode =>
      have hp := sanitizeResourceNameC_spec (jsOr depNode.data.label depNode.id) st h
      have ih := depRefsC_spec rest nodes
        (sanitizeResourceNameC (jsOr depNode.data.label depNode.id) st).2 hp.2.1
      simp only [depRefsC, hf]
      refine ⟨?_, ih.2.1, by rw [ih.2.2, hp.2.2]⟩
      rw [List.map_cons]
      simp only [refOfDep, hf]
      rw [List.reduceOption_cons_of_some, ih.1, hp.1]

theorem generateDependsOnC_spec (nodeId : Str) (edges : List Edge) (nodes : List Node)
    (st : GenCaches) (hs : ValidSanCache st.sanitizedNameCache)
    (hd : ValidDepCache edges st.dependencyCache) :
    (generateDependsOnC nodeId edges nodes st).1 = generateDependsOn nodeId edges nodes ∧
    ValidSanCache (generateDependsOnC nodeId edges nodes st).2.sanitizedNameCache ∧
    ValidDepCache edges (generateDependsOnC nodeId edges nodes st).2.dependencyCache := by
  obtain ⟨hf1, hf2, hf3⟩ := findDependenciesC_spec nodeId edges st hd
  have hs' : ValidSanCache (findDependenciesC nodeId edges st).2.sanitizedNameCache := by
    rw [hf2]
    exact hs
  by_cases h1 : findDependencies nodeId edges = []
  · simp only [generateDependsOnC, generateDependsOn, hf1, h1, if_pos]
    exact ⟨by trivial, hs', hf3⟩
  · obtain ⟨hr1, hr2, hr3⟩ := depRefsC_spec (findDependencies nodeId edges) nodes
      (findDependenciesC nodeId edges st).2 hs'
    have hd' : ValidDepCache edges
        (depRefsC (findDependencies nodeId edges) nodes
          (findDependenciesC nodeId edges st).2).2.dependencyCache := by
      rw [hr3]
      exact hf3
    by_cases h2 : ((findDependencies nodeId edges).map (refOfDep nodes)).reduceOption = []
    · simp only [generateDependsOnC, generateDependsOn, hf1, if_neg h1, hr1, h2, if_pos]
      exact ⟨by trivial, hr2, hd'⟩
    · simp only [generateDependsOnC, generateDependsOn, hf1, if_neg h1, hr1, if_neg h2]
      exact ⟨by trivial, hr2, hd'⟩

theorem dependsOnSegmentC_spec (nodeId : Str) (edges : List Edge) (nodes : List Node)
    (st : GenCaches) (hs : ValidSanCache st.sanitizedNameCache)
    (hd : ValidDepCache edges st.dependencyCache) :
    (dependsOnSegmentC nodeId edges nodes st).1 = dependsOnSegment nodeId edges nodes ∧
    ValidSanCache (dependsOnSegmentC nodeId edges nodes st).2.sanitizedNameCache ∧
    ValidDepCache edges (dependsOnSegmentC nodeId edges nodes st).2.dependencyCache := by
  obtain ⟨hg1, hg2, hg3⟩ := generateDependsOnC_spec nodeId edges nodes st hs hd
  refine ⟨?_, hg2, hg3⟩
  simp only [dependsOnSegmentC, dependsOnSegment, hg1]

theorem generateEC2BlockC_spec (node : Node) (rn : Str) (edges : List Edge)
    (nodes : List Node) (st : GenCaches) (hs : ValidSanCache st.sanitizedNameCache)
    (hd : ValidDepCache edges st.dependencyCache) :
    (generateEC2BlockC node rn edges nodes st).1 = generateEC2Block node rn edges nodes ∧
    ValidSanCache (generateEC2BlockC node rn edges nodes st).2.sanitizedNameCache ∧
    ValidDepCache edges (generateEC2BlockC node rn edges nodes st).2.dependencyCache := by
  obtain ⟨h1, h2, h3⟩ := dependsOnSegmentC_spec node.id edges nodes st hs hd
  exact ⟨by simp only [generateEC2BlockC, generateEC2Block, ec2Lines, h1], h2, h3⟩

theorem generateLambdaBlockC_spec (node : Node) (rn : Str) (edges : List Edge)
    (nodes : List Node) (st : GenCaches) (hs : ValidSanCache st.sanitizedNameCache)
    (hd : ValidDepCache edges st.dependencyCache) :
    (generateLambdaBlockC node rn edges nodes st).1 = generateLambdaBlock node rn edges nodes ∧
    ValidSanCache (generateLambdaBlockC node rn edges nodes st).2.sanitizedNameCache ∧
    ValidDepCache edges (generateLambdaBlockC node rn edges nodes st).2.dependencyCache := by
  obtain ⟨h1, h2, h3⟩ := dependsOnSegmentC_spec node.id edges nodes st hs hd
  exact ⟨by simp only [generateLambdaBlockC, generateLambdaBlock, lambdaLines, h1], h2, h3⟩

theorem generateVPCBlockC_spec (node : Node) (rn : Str) (edges : List Edge)
    (nodes : List Node) (st : GenCaches) (hs : ValidSanCache st.sanitizedNameCache)
    (hd : ValidDepCache edges st.dependencyCache) :
    (generateVPCBlockC node rn edges nodes st).1 = generateVPCBlock node rn edges nodes ∧
    ValidSanCache (generateVPCBlockC node rn edges nodes st).2.sanitizedNameCache ∧
    ValidDepCache edges (generateVPCBlockC node rn edges nodes st).2.dependencyCache := by
  obtain ⟨h1, h2, h3⟩ := dependsOnSegmentC_spec node.id edges nodes st hs hd
  exact ⟨by simp only [generateVPCBlockC, generateVPCBlock, vpcLines, h1], h2, h3⟩

theorem generateALBBlockC_spec (node : Node) (rn : Str) (edges : List Edge)
    (nodes : List Node) (st : GenCaches) (hs : ValidSanCache st.sanitizedNameCache)
    (hd : ValidDepCache edges st.dependencyCache) :
    (generateALBBlockC node rn edges nodes st).1 = generateALBBlock node rn edges nodes ∧
    ValidSanCache (generateALBBlockC node rn edges nodes st).2.sanitizedNameCache ∧
    ValidDepCache edges (generateALBBlockC node rn edges nodes st).2.dependencyCache := by
  obtain ⟨h1, h2, h3⟩ := dependsOnSegmentC_spec node.id edges nodes st hs hd
  exact ⟨by simp only [generateALBBlockC, generateALBBlock, albLines, h1], h2, h3⟩

theorem generateAPIGatewayBlockC_spec (node : Node) (rn : Str) (edges : List Edge)
    (nodes : List Node) (st : GenCaches) (hs : ValidSanCache st.sanitizedNameCache)
    (hd : ValidDepCache edges st.dependencyCache) :
    (generateAPIGatewayBlockC node rn edges nodes st).1
      = generateAPIGatewayBlock node rn edges nodes ∧
    ValidSanCache (generateAPIGatewayBlockC node rn edges nodes st).2.sanitizedNameCache ∧
    ValidDepCache edges (generateAPIGatewayBlockC node rn edges nodes st).2.dependencyCache := by
  obtain ⟨h1, h2, h3⟩ := dependsOnSegmentC_spec node.id edges nodes st hs hd
  exact ⟨by simp only [generateAPIGatewayBlockC, generateAPIGatewayBlock,
    apiGatewayLines, h1], h2, h3⟩

theorem generateS3BlockC_spec (node : Node) (rn : Str) (edges : List Edge)
    (nodes : List Node) (st : GenCaches) (hs : ValidSanCache st.sanitizedNameCache)
    (hd : ValidDepCache edges st.dependencyCache) :
    (generateS3BlockC node rn edges nodes st).1 = generateS3Block node rn edges nodes ∧
    ValidSanCache (generateS3BlockC node rn edges nodes st).2.sanitizedNameCache ∧
    ValidDepCache edges (generateS3BlockC node rn edges nodes st).2.dependencyCache := by
  obtain ⟨h1, h2, h3⟩ := dependsOnSegmentC_spec node.id edges nodes st hs hd
  exact ⟨by simp only [generateS3BlockC, generateS3Block, s3PrimaryLines, h1], h2, h3⟩

theorem generateRDSBlockC_spec (node : Node) (rn : Str) (edges : List Edge)
    (nodes : List Node) (st : GenCaches) (hs : ValidSanCache st.sanitizedNameCache)
    (hd : ValidDepCache edges st.dependencyCache) :
    (generateRDSBlockC node rn edges nodes st).1 = generateRDSBlock node rn edges nodes ∧
    ValidSanCache (generateRDSBlockC node rn edges nodes st).2.sanitizedNameCache ∧
    ValidDepCache edges (generateRDSBlockC node rn edges nodes st).2.dependencyCache := by
  obtain ⟨h1, h2, h3⟩ := dependsOnSegmentC_spec node.id edges nodes st hs hd
  exact ⟨by simp only [generateRDSBlockC, generateRDSBlock, rdsLines, h1], h2, h3⟩

theorem generateDynamoDBBlockC_spec (node : Node) (rn : Str) (edges : List Edge)
    (nodes : List Node) (st : GenCaches) (hs : ValidSanCache st.sanitizedNameCache)
    (hd : ValidDepCache edges st.dependencyCache) :
    (generateDynamoDBBlockC node rn edges nodes st).1
      = generateDynamoDBBlock node rn edges nodes ∧
    ValidSanCache (generateDynamoDBBlockC node rn edges nodes st).2.sanitizedNameCache ∧
    ValidDepCache edges (generateDynamoDBBlockC node rn edges nodes st).2.dependencyCache := by
  obtain ⟨h1, h2, h3⟩ := dependsOnSegmentC_spec node.id edges nodes st hs hd
  exact ⟨by simp only [generateDynamoDBBlockC, generateDynamoDBBlock,
    dynamoDBLines, h1], h2, h3⟩

theorem generateWAFBlockC_spec (node : Node) (rn : Str) (edges : List Edge)
    (nodes : List Node) (st : GenCaches) (hs : ValidSanCache st.sanitizedNameCache)
    (hd : ValidDepCache edges st.dependencyCache) :
    (generateWAFBlockC node rn edges nodes st).1 = generateWAFBlock node rn edges nodes ∧
    ValidSanCache (generateWAFBlockC node rn edges nodes st).2.sanitizedNameCache ∧
    ValidDepCache edges (generateWAFBlockC node rn edges nodes st).2.dependencyCache := by
  obtain ⟨h1, h2, h3⟩ := dependsOnSegmentC_spec node.id edges nodes st hs hd
  exact ⟨by simp only [generateWAFBlockC, generateWAFBlock, wafLines, h1], h2, h3⟩

theorem generateResourceBlockC_spec (node : Node) (edges : List Edge) (nodes : List Node)
    (st : GenCaches) (hs : ValidSanCache st.sanitizedNameCache)
    (hd : ValidDepCache edges st.dependencyCache) :
    (generateResourceBlockC node edges nodes st).1 = generateResourceBlock node edges nodes ∧
    ValidSanCache (generateResourceBlockC node edges nodes st).2.sanitizedNameCache ∧
    ValidDepCache edges (generateResourceBlockC node edges nodes st).2.dependencyCache := by
  by_cases hlab : node.data.label = []
  · simp only [generateResourceBlockC, generateResourceBlock, if_pos hlab]
    exact ⟨by trivial, hs, hd⟩
  · obtain ⟨hp1, hp2, hp3⟩ := sanitizeResourceNameC_spec (jsOr node.data.label node.id) st hs
    have hd' : ValidDepCache edges
        (sanitizeResourceNameC (jsOr node.data.label node.id) st).2.dependencyCache := by
      rw [hp3]
      exact hd
    by_cases h1 : node.type = ("ec2").toList
    · obtain ⟨he1, he2, he3⟩ := generateEC2BlockC_spec node
        (sanitizeResourceNameC (jsOr node.data.label node.id) st).1 edges nodes
        (sanitizeResourceNameC (jsOr node.data.label node.id) st).2 hp2 hd'
      simp only [generateResourceBlockC, generateResourceBlock, if_neg hlab,
        if_pos h1]
      exact ⟨by rw [he1, hp1], he2, he3⟩
    by_cases h2 : node.type = ("lambda").toList
    · obtain ⟨he1, he2, he3⟩ := generateLambdaBlockC_spec node
        (sanitizeResourceNameC (jsOr node.data.label node.id) st).1 edges nodes
        (sanitizeResourceNameC (jsOr node.data.label node.id) st).2 hp2 hd'
      simp only [generateResourceBlockC, generateResourceBlock, if_neg hlab, if_neg h1,
        if_pos h2]
      exact ⟨by rw [he1, hp1], he2, he3⟩
    by_cases h3 : node.type = ("vpc").toList
    · obtain ⟨he1, he2, he3⟩ := generateVPCBlockC_spec node
        (sanitizeResourceNameC (jsOr node.data.label node.id) st).1 edges nodes
        (sanitizeResourceNameC (jsOr node.data.label node.id) st).2 hp2 hd'
      simp only [generateResourceBlockC, generateResourceBlock, if_neg hlab, if_neg h1, if_neg h2,
        if_pos h3]
      exact ⟨by rw [he1, hp1], he2, he3⟩
    by_cases h4 : node.type = ("alb").toList
    · obtain ⟨he1, he2, he3⟩ := generateALBBlockC_spec node
        (sanitizeResourceNameC (jsOr node.data.label node.id) st).1 edges nodes
        (sanitizeResourceNameC (jsOr node.data.label node.id) st).2 hp2 hd'
      simp only [generateResourceBlockC, generateResourceBlock, if_neg hlab, if_neg h1, if_neg h2, if_neg h3,
        if_pos h4]
      exact ⟨by rw [he1, hp1], he2, he3⟩
    by_cases h5 : node.type = ("apigateway").toList
    · obtain ⟨he1, he2, he3⟩ := generateAPIGatewayBlockC_spec node
        (sanitizeResourceNameC (jsOr node.data.label node.id) st).1 edges nodes
        (sanitizeResourceNameC (jsOr node.data.label node.id) st).2 hp2 hd'
      simp only [generateResourceBlockC, generateResourceBlock, if_neg hlab, if_neg h1, if_neg h2, if_neg h3, if_neg h4,
        if_pos h5]
      exact ⟨by rw [he1, hp1], he2, he3⟩
    by_cases h6 : node.type = ("s3").toList
    · obtain ⟨he1, he2, he3⟩ := generateS3BlockC_spec node
        (sanitizeResourceNameC (jsOr node.data.label node.id) st).1 edges nodes
        (sanitizeResourceNameC (jsOr node.data.label node.id) st).2 hp2 hd'
      simp only [generateResourceBlockC, generateResourceBlock, if_neg hlab, if_neg h1, if_neg h2, if_neg h3, if_neg h4, if_neg h5,
        if_pos h6]
      exact ⟨by rw [he1, hp1], he2, he3⟩
    by_cases h7 : node.type = ("rds").toList
    · obtain ⟨he1, he2, he3⟩ := generateRDSBlockC_spec node
        (sanitizeResourceNameC (jsOr node.data.label node.id) st).1 edges nodes
        (sanitizeResourceNameC (jsOr node.data.label node.id) st).2 hp2 hd'
      simp only [generateResourceBlockC, generateResourceBlock, if_neg hlab, if_neg h1, if_neg h2, if_neg h3, if_neg h4, if_neg h5, if_neg h6,
        if_pos h7]
      exact ⟨by rw [he1, hp1], he2, he3⟩
    by_cases h8 : node.type = ("dynamodb").toList
    · obtain ⟨he1, he2, he3⟩ := generateDynamoDBBlockC_spec node
        (sanitizeResourceNameC (jsOr node.data.label node.id) st).1 edges nodes
        (sanitizeResourceNameC (jsOr node.data.label node.id) st).2 hp2 hd'
      simp only [generateResourceBlockC, generateResourceBlock, if_neg hlab, if_neg h1, if_neg h2, if_neg h3, if_neg h4, if_neg h5, if_neg h6, if_neg h7,
        if_pos h8]
      exact ⟨by rw [he1, hp1], he2, he3⟩
    by_cases h9 : node.type = ("waf").toList
    · obtain ⟨he1, he2, he3⟩ := generateWAFBlockC_spec node
        (sanitizeResourceNameC (jsOr node.data.label node.id) st).1 edges nodes
        (sanitizeResourceNameC (jsOr node.data.label node.id) st).2 hp2 hd'
      simp only [generateResourceBlockC, generateResourceBlock, if_neg hlab, if_neg h1, if_neg h2, if_neg h3, if_neg h4, if_neg h5, if_neg h6, if_neg h7, if_neg h8,
        if_pos h9]
      exact ⟨by rw [he1, hp1], he2, he3⟩
    simp only [generateResourceBlockC, generateResourceBlock, if_neg hlab, if_neg h1, if_neg h2, if_neg h3, if_neg h4, if_neg h5, if_neg h6, if_neg h7, if_neg h8, if_neg h9]
    exact ⟨by trivial, hp2, hd'⟩

theorem resourceBlocksC_spec : ∀ (l : List Node) (edges : List Edge)
    (allNodes : List Node) (st : GenCaches),
    ValidSanCache st.sanitizedNameCache →
    ValidDepCache edges st.dependencyCache →
    (resourceBlocksC l edges allNodes st).1 = l.filterMap (blockOf edges allNodes) ∧
    ValidSanCache (resourceBlocksC l edges allNodes st).2.sanitizedNameCache ∧
    ValidDepCache edges (resourceBlocksC l edges allNodes st).2.dependencyCache
  | [], edges, allNodes, st, hs, hd => ⟨rfl, hs, hd⟩
  | node :: rest, edges, allNodes, st, hs, hd => by
    by_cases hv : node.id = [] ∨ node.type = []
    · have hb : blockOf edges allNodes node = none := by
        rw [blockOf, if_pos hv]
      have ih := resourceBlocksC_spec rest edges allNodes st hs hd
      simp only [resourceBlocksC, if_pos hv, List.filterMap_cons, hb]
      exact ih
    · obtain ⟨hg1, hg2, hg3⟩ := generateResourceBlockC_spec node edges allNodes st hs hd
      have ih := resourceBlocksC_spec rest edges allNodes
        (generateResourceBlockC node edges allNodes st).2 hg2 hg3
      cases hr : generateResourceBlock node edges allNodes with
      | error msg =>
        have hb : blockOf edges allNodes node = none := by
          rw [blockOf, if_neg hv, hr]
        simp only [resourceBlocksC, if_neg hv, hg1, hr, List.filterMap_cons, hb]
        exact ih
      | ok block =>
        have hb : blockOf edges allNodes node
            = (if block = [] then none else some block) := by
          rw [blockOf, if_neg hv, hr]
        simp only [resourceBlocksC, if_neg hv, hg1, hr, List.filterMap_cons, hb]
        by_cases hblk : block = []
        · simp only [if_pos hblk]
          exact ih
        · simp only [if_neg hblk]
          exact ⟨by rw [ih.1], ih.2.1, ih.2.2⟩

theorem generateTerraformC_spec (nodes : List Node) (edges : List Edge) (st0 : GenCaches)
    (hs : ValidSanCache st0.sanitizedNameCache) :
    (generateTerraformC nodes edges st0).1 = generateTerraform nodes edges ∧
    ValidSanCache (generateTerraformC nodes edges st0).2.sanitizedNameCache := by
  by_cases hn : nodes = []
  · simp only [generateTerraformC, generateTerraform, if_pos hn]
    exact ⟨by trivial, hs⟩
  · have hd0 : ValidDepCache edges
        ({ st0 with dependencyCache := [] } : GenCaches).dependencyCache := by
      intro kv hkv
      cases hkv
    obtain ⟨h1, h2, h3⟩ := resourceBlocksC_spec nodes edges nodes
      { st0 with dependencyCache := [] } hs hd0
    by_cases hb : nodes.filterMap (blockOf edges nodes) = []
    · simp only [generateTerraformC, generateTerraform, resourceBlocksOf, if_neg hn,
        h1, hb, if_pos]
      exact ⟨by trivial, h2⟩
    · simp only [generateTerraformC, generateTerraform, resourceBlocksOf, if_neg hn,
        h1, if_neg hb]
      exact ⟨by trivial, h2⟩

/-- C9: the generator is deterministic across invocations.  Threading
    the module-level caches explicitly, any two calls on equal inputs
    return the same string whatever the persistent sanitized-name cache
    holds (as long as it holds only the sanitizer's own outputs, which
    every reachable state does: the empty initial cache qualifies and the
    final conjunct shows the invariant is preserved by each call) and
    whatever the dependency cache holds (it is cleared on the non-empty
    path before use, so it is unconstrained here); both calls agree with
    the pure cache-free generator. -/
theorem c9_cache_determinism (nodes : List Node) (edges : List Edge)
    (st1 st2 : GenCaches)
    (h1 : ValidSanCache st1.sanitizedNameCache)
    (h2 : ValidSanCache st2.sanitizedNameCache) :
    (generateTerraformC nodes edges st1).1 = generateTerraform nodes edges ∧
    (generateTerraformC nodes edges st1).1 = (generateTerraformC nodes edges st2).1 ∧
    ValidSanCache (generateTerraformC nodes edges st1).2.sanitizedNameCache := by
  obtain ⟨a1, a2⟩ := generateTerraformC_spec nodes edges st1 h1
  obtain ⟨b1, -⟩ := generateTerraformC_spec nodes edges st2 h2
  exact ⟨a1, by rw [a1, b1], a2⟩

/-- C9 witness: one EC2 node, once from the empty caches and once from a
    state whose sanitized-name cache already holds the binding for web
    and whose dependency cache holds a stale binding for an unrelated
    key; both runs return the pure generator's output. -/
theorem c9_witness :
    ValidSanCache (GenCaches.sanitizedNameCache ⟨[], []⟩) ∧
    ValidSanCache (GenCaches.sanitizedNameCache
      ⟨[((("web").toList), ("web").toList)],
       [((("q").toList), [("z").toList])]⟩) ∧
    ((generateTerraformC
        [⟨("n1").toList, ("ec2").toList, ⟨("web").toList, noProps⟩⟩] [] ⟨[], []⟩).1
      = generateTerraform
          [⟨("n1").toList, ("ec2").toList, ⟨("web").toList, noProps⟩⟩] [] ∧
     (generateTerraformC
        [⟨("n1").toList, ("ec2").toList, ⟨("web").toList, noProps⟩⟩] [] ⟨[], []⟩).1
      = (generateTerraformC
          [⟨("n1").toList, ("ec2").toList, ⟨("web").toList, noProps⟩⟩] []
          ⟨[((("web").toList), ("web").toList)],
           [((("q").toList), [("z").toList])]⟩).1 ∧
     ValidSanCache (generateTerraformC
        [⟨("n1").toList, ("ec2").toList, ⟨("web").toList, noProps⟩⟩] []
        ⟨[], []⟩).2.sanitizedNameCache) := by
  have hv1 : ValidSanCache (GenCaches.sanitizedNameCache ⟨[], []⟩) := by
    intro kv hkv
    cases hkv
  have hv2 : ValidSanCache (GenCaches.sanitizedNameCache
      ⟨[((("web").toList), ("web").toList)],
       [((("q").toList), [("z").toList])]⟩) := by
    intro kv hkv
    have h := List.mem_singleton.1 hkv
    subst h
    decide
  exact ⟨hv1, hv2, c9_cache_determinism
    [⟨("n1").toList, ("ec2").toList, ⟨("web").toList, noProps⟩⟩] []
    ⟨[], []⟩
    ⟨[((("web").toList), ("web").toList)], [((("q").toList), [("z").toList])]⟩
    hv1 hv2⟩

end TG
